import Mathlib

/-!
# External-call contract layer of `pkg/github`

A shallow embedding of `pkg/github/azure_openai.go` and `pkg/github/swe_agent.go`.

* Go strings are Lean `String`s (sequences of code points); Go `error` values are
  their message text, so a fallible Go function returns `Except String α`.
* The process environment is a partial map from names to values.
* Standard-library calls whose result the repository code only branches on
  (`url.Parse`, `json.Marshal`, `json.Unmarshal`, `http.NewRequestWithContext`,
  `http.Client.Do`, `io.ReadAll`) are parameters of the embedded functions.
* `strings.TrimSpace`, `strings.TrimSuffix`, `strings.Join`, the verb `%d`,
  `path.Join`, `path.Clean` and `(*URL).String` are embedded from the Go standard
  library; of the last one the escaping helpers are parameters.
* `swe_agent.go` repeats the declarations of `azure_openai.go` word for word
  (lines 184-316); they are embedded once.
* The sample inputs give the standard-library parameters concrete values on a few
  endpoints and bodies; every other body stands for one that does not decode.
-/

namespace Github

/-! ## Go standard library: `unicode`, `strings`, `os` -/

/-- Go `unicode.IsSpace`: the Latin-1 cases, then the `White_Space` table. -/
def isSpace (c : Char) : Bool :=
  let n := c.toNat
  if n ≤ 0xFF then
    n == 0x09 || n == 0x0A || n == 0x0B || n == 0x0C || n == 0x0D || n == 0x20
      || n == 0x85 || n == 0xA0
  else
    n == 0x1680 || (0x2000 ≤ n && n ≤ 0x200A) || n == 0x2028 || n == 0x2029
      || n == 0x202F || n == 0x205F || n == 0x3000

/-- Go `strings.TrimSpace`: `TrimRightFunc (TrimLeftFunc s IsSpace) IsSpace`. -/
def TrimSpace (s : String) : String :=
  ⟨((s.data.dropWhile isSpace).reverse.dropWhile isSpace).reverse⟩

/-- Go `strings.Join`. -/
def Join (elems : List String) (sep : String) : String :=
  sep.intercalate elems

/-- The process environment: a name is bound to a value or unset. -/
abbrev Env := String → Option String

/-- Go `os.Getenv`: the value, or the empty string when the name is unset. -/
def Getenv (env : Env) (key : String) : String :=
  (env key).getD ""

/-- Go `strings.HasSuffix`. -/
def HasSuffix (s suffix : String) : Bool :=
  suffix.data.isSuffixOf s.data

/-- Go `strings.TrimSuffix`: `s` without the trailing `suffix`, or `s` itself. -/
def TrimSuffix (s suffix : String) : String :=
  if HasSuffix s suffix then ⟨s.data.take (s.data.length - suffix.data.length)⟩ else s

/-- Go `fmt` verb `%d` on an `int`: decimal digits, a leading minus sign when negative. -/
def fmtD : Int → String
  | Int.ofNat m => Nat.repr m
  | Int.negSucc m => "-" ++ Nat.repr (m + 1)

/-! ## Go standard library: `path` -/

/-- The backtracking loop of `path.Clean`:
`for out.w > dotdot && out.index(out.w) != '/' { out.w-- }`, on the write index. -/
def backtrack (out : List Char) (dotdot : Nat) : Nat → Nat
  | 0 => 0
  | w + 1 =>
    if w + 1 > dotdot ∧ out.get? (w + 1) ≠ some '/' then backtrack out dotdot w else w + 1

/-- The main loop of `path.Clean` (`for r < n`), on the unread input `rest = path[r:]`,
the written output `out` (its length is `out.w`) and `dotdot`. Every turn reads at
least one byte, so `fuel = n` turns are enough. -/
def cleanLoop (rooted : Bool) : Nat → List Char → List Char → Nat → List Char
  | 0, _, out, _ => out
  | _ + 1, [], out, _ => out
  | fuel + 1, c :: t, out, dotdot =>
    if c = '/' then
      -- empty path element
      cleanLoop rooted fuel t out dotdot
    else if c = '.' ∧ (t = [] ∨ t.head? = some '/') then
      -- . element
      cleanLoop rooted fuel t out dotdot
    else if c = '.' ∧ t.head? = some '.' ∧ (t.tail = [] ∨ t.tail.head? = some '/') then
      -- .. element: remove to last /
      if out.length > dotdot then
        cleanLoop rooted fuel t.tail (out.take (backtrack out dotdot (out.length - 1))) dotdot
      else if !rooted then
        let out := if out.length > 0 then out ++ ['/'] else out
        let out := out ++ ['.', '.']
        cleanLoop rooted fuel t.tail out out.length
      else
        cleanLoop rooted fuel t.tail out dotdot
    else
      -- real path element: add slash if needed, copy element
      let out := if (rooted && out.length != 1) || (!rooted && out.length != 0)
        then out ++ ['/'] else out
      cleanLoop rooted fuel ((c :: t).dropWhile (· != '/'))
        (out ++ (c :: t).takeWhile (· != '/')) dotdot

/-- Go `path.Clean`. -/
def Clean (path : String) : String :=
  if path = "" then "."
  else
    let rooted : Bool := path.data.head? = some '/'
    let out := cleanLoop rooted path.data.length
      (if rooted then path.data.tail else path.data)
      (if rooted then ['/'] else []) (if rooted then 1 else 0)
    if out.length = 0 then "." else ⟨out⟩

/-- The buffer loop of `path.Join`: empty leading elements are skipped, the
others are appended with a slash between them. -/
def joinBuf : List Char → List String → List Char
  | buf, [] => buf
  | buf, e :: elem =>
    if buf.length > 0 ∨ e ≠ "" then
      joinBuf ((if buf.length > 0 then buf ++ ['/'] else buf) ++ e.data) elem
    else joinBuf buf elem

/-- Go `path.Join`. -/
def pathJoin (elem : List String) : String :=
  if (elem.map String.length).sum = 0 then ""
  else Clean ⟨joinBuf [] elem⟩

/-! ## Go standard library: `net/url`, `net/http`, `encoding/json` -/

/-- The type `net/url.URL`, with the fields that `url.Parse` sets and `(*URL).String`
reads. `User` is the rendered user information `u.User.String()`, or `none` for a
nil `User`. -/
structure URL where
  Scheme : String
  Opaque : String
  User : Option String
  Host : String
  Path : String
  RawPath : String
  OmitHost : Bool
  ForceQuery : Bool
  RawQuery : String
  Fragment : String
  RawFragment : String
deriving DecidableEq, Repr

/-- An outgoing `http.Request`: method, target, the headers set on it, body. -/
structure Request where
  Method : String
  URL : String
  Header : List (String × String)
  Body : String
deriving DecidableEq, Repr

/-- The method `Header.Set`: the value replaces what the key held. -/
def Request.SetHeader (req : Request) (key value : String) : Request :=
  { req with Header := (key, value) :: req.Header.filter (fun kv => kv.1 ≠ key) }

/-- An `http.Response`; `Body` is what `io.ReadAll(resp.Body)` returns. -/
structure Response where
  Status : String
  StatusCode : Int
  Body : Except String String

/-! ## `azure_openai.go` -/

structure AzureOpenAIConfig where
  Endpoint : String
  Deployment : String
  APIVersion : String
  APIKey : String
deriving DecidableEq, Repr

structure azureOpenAIChatMessage where
  Role : String
  Content : String
deriving DecidableEq, Repr

structure azureOpenAIChatCompletionRequest where
  Messages : List azureOpenAIChatMessage
  Temperature : Option Float

/-- The element type of `Choices`, anonymous in the source. -/
structure azureOpenAIChoice where
  Message : azureOpenAIChatMessage
deriving DecidableEq, Repr

/-- The pointee type of `Error`, anonymous in the source. -/
structure azureOpenAIErrorBody where
  Message : String
deriving DecidableEq, Repr

structure azureOpenAIChatCompletionResponse where
  Choices : List azureOpenAIChoice
  Error : Option azureOpenAIErrorBody
deriving DecidableEq, Repr

/-- The standard-library calls of `AzureOpenAIChatCompletion` that the embedding
takes as given. `EscapedPath` and `EscapedFragment` are the methods of `URL` of
those names and `escapeHost h` is `escape(h, encodeHost)`, all three called by
`(*URL).String`; `querySet raw key value` stands for
`q := u.Query(); q.Set(key, value); q.Encode()` on the raw query `raw`;
`Do` is `(&http.Client{Timeout: 30 * time.Second}).Do` under the caller's context. -/
structure ChatDeps where
  urlParse : String → Except String URL
  EscapedPath : URL → String
  EscapedFragment : URL → String
  escapeHost : String → String
  querySet : String → String → String → String
  jsonMarshal : azureOpenAIChatCompletionRequest → Except String String
  NewRequest : String → String → String → Except String Request
  Do : Request → Except String Response
  jsonUnmarshal : String → Except String azureOpenAIChatCompletionResponse

/-- The method `(*URL).String` of `net/url`: scheme, then either the opaque part or
the authority and the escaped path, then query and fragment. An opaque URL is
rendered without its `Path`. -/
def urlString (std : ChatDeps) (u : URL) : String :=
  let buf := ""
  let buf := if u.Scheme ≠ "" then buf ++ u.Scheme ++ ":" else buf
  let buf :=
    if u.Opaque ≠ "" then buf ++ u.Opaque
    else
      let buf :=
        if u.Scheme ≠ "" ∨ u.Host ≠ "" ∨ u.User ≠ none then
          if u.OmitHost = true ∧ u.Host = "" ∧ u.User = none then
            -- omit empty host
            buf
          else
            let buf := if u.Host ≠ "" ∨ u.Path ≠ "" ∨ u.User ≠ none then buf ++ "//" else buf
            let buf := match u.User with
              | some ui => buf ++ ui ++ "@"
              | none => buf
            if u.Host ≠ "" then buf ++ std.escapeHost u.Host else buf
        else buf
      let path := std.EscapedPath u
      let buf := if path ≠ "" ∧ path.data.head? ≠ some '/' ∧ u.Host ≠ "" then buf ++ "/"
        else buf
      let buf :=
        if buf.length = 0 then
          -- a first segment with a colon would be mistaken for a scheme
          if ':' ∈ path.data.takeWhile (· != '/') then buf ++ "./" else buf
        else buf
      buf ++ path
  let buf := if u.ForceQuery = true ∨ u.RawQuery ≠ "" then buf ++ "?" ++ u.RawQuery else buf
  let buf := if u.Fragment ≠ "" then buf ++ "#" ++ std.EscapedFragment u else buf
  buf

/-- The function `AzureOpenAIConfigFromEnv` (azure_openai.go:25-55);
`urlParse` is `url.Parse`. -/
def AzureOpenAIConfigFromEnv (urlParse : String → Except String URL) (env : Env) :
    Except String AzureOpenAIConfig :=
  let cfg : AzureOpenAIConfig :=
    { Endpoint := TrimSpace (Getenv env "AZURE_OPENAI_ENDPOINT")
      Deployment := TrimSpace (Getenv env "AZURE_OPENAI_DEPLOYMENT")
      APIVersion := TrimSpace (Getenv env "AZURE_OPENAI_API_VERSION")
      APIKey := TrimSpace (Getenv env "AZURE_OPENAI_API_KEY") }
  let missing : List String := []
  let missing := if cfg.Endpoint = "" then missing ++ ["AZURE_OPENAI_ENDPOINT"] else missing
  let missing := if cfg.Deployment = "" then missing ++ ["AZURE_OPENAI_DEPLOYMENT"] else missing
  let missing := if cfg.APIVersion = "" then missing ++ ["AZURE_OPENAI_API_VERSION"] else missing
  let missing := if cfg.APIKey = "" then missing ++ ["AZURE_OPENAI_API_KEY"] else missing
  if missing.length > 0 then
    .error ("missing Azure OpenAI configuration: " ++ Join missing ", ")
  else
    match urlParse cfg.Endpoint with
    | .error err => .error ("invalid AZURE_OPENAI_ENDPOINT: " ++ err)
    | .ok _ => .ok cfg

/-- The method `ErrorMessage` (azure_openai.go:145-150). -/
def azureOpenAIChatCompletionResponse.ErrorMessage (r : azureOpenAIChatCompletionResponse) :
    String :=
  match r.Error with
  | none => ""
  | some e => e.Message

/-- Lines 77-85 of `AzureOpenAIChatCompletion`: the request URL. -/
def chatCompletionURL (std : ChatDeps) (cfg : AzureOpenAIConfig) : Except String URL :=
  match std.urlParse cfg.Endpoint with
  | .error err => .error ("invalid Azure OpenAI endpoint: " ++ err)
  | .ok endpoint =>
    let endpoint := { endpoint with
      Path := pathJoin [endpoint.Path, "/openai/deployments/", cfg.Deployment,
        "/chat/completions"] }
    let endpoint := { endpoint with
      RawQuery := std.querySet endpoint.RawQuery "api-version" cfg.APIVersion }
    .ok endpoint

/-- Lines 87-94 of `AzureOpenAIChatCompletion`: the request payload. -/
def chatCompletionPayload (systemPrompt userPrompt : String) :
    azureOpenAIChatCompletionRequest :=
  let temperature : Float := 0.2
  { Messages := [{ Role := "system", Content := systemPrompt },
      { Role := "user", Content := userPrompt }]
    Temperature := some temperature }

/-- Lines 77-113 of `AzureOpenAIChatCompletion`: build the request and send it. -/
def chatCompletionExchange (std : ChatDeps) (cfg : AzureOpenAIConfig)
    (systemPrompt userPrompt : String) : Except String Response :=
  match chatCompletionURL std cfg with
  | .error err => .error err
  | .ok endpoint =>
    match std.jsonMarshal (chatCompletionPayload systemPrompt userPrompt) with
    | .error err => .error ("failed to marshal Azure OpenAI request: " ++ err)
    | .ok body =>
      match std.NewRequest "POST" (urlString std endpoint) body with
      | .error err => .error ("failed to create Azure OpenAI request: " ++ err)
      | .ok req =>
        let req := req.SetHeader "Content-Type" "application/json"
        let req := req.SetHeader "api-key" cfg.APIKey
        match std.Do req with
        | .error err => .error ("azure openai request failed: " ++ err)
        | .ok resp => .ok resp

/-- Lines 115-142 of `AzureOpenAIChatCompletion`: read, decode and classify. -/
def chatCompletionResult (std : ChatDeps) (resp : Response) : Except String String :=
  match resp.Body with
  | .error err => .error ("failed to read Azure OpenAI response: " ++ err)
  | .ok respBody =>
    match std.jsonUnmarshal respBody with
    | .error err => .error ("failed to decode Azure OpenAI response: " ++ err)
    | .ok decoded =>
      if resp.StatusCode < 200 ∨ resp.StatusCode ≥ 300 then
        let msg := TrimSpace decoded.ErrorMessage
        let msg := if msg = "" then TrimSpace respBody else msg
        .error ("azure openai returned " ++ resp.Status ++ ": " ++ msg)
      else
        match decoded.Choices with
        | [] => .error "azure openai returned no choices"
        | first :: _ =>
          let content := TrimSpace first.Message.Content
          if content = "" then .error "azure openai returned empty content"
          else .ok content

/-- The function `AzureOpenAIChatCompletion` (azure_openai.go:76-143). -/
def AzureOpenAIChatCompletion (std : ChatDeps) (cfg : AzureOpenAIConfig)
    (systemPrompt userPrompt : String) : Except String String :=
  match chatCompletionExchange std cfg systemPrompt userPrompt with
  | .error err => .error err
  | .ok resp => chatCompletionResult std resp

/-! ## `swe_agent.go` -/

/-- The type `SWEAgentConfig`: the configuration for calling the SWE Agent REST API. -/
structure SWEAgentConfig where
  Endpoint : String
  AzureOpenAIAPIBase : String
  AzureOpenAIAPIKey : String
  AzureOpenAIModel : String
  AzureAPIVersion : String
  GitHubToken : String
deriving DecidableEq, Repr

structure SWEAgentModelConfig where
  Name : String
  APIBase : String
  APIVersion : String
  APIKey : String
deriving DecidableEq, Repr

structure SWEAgentModel where
  Model : SWEAgentModelConfig
deriving DecidableEq, Repr

/-- The type `SWEAgentProblemStatement`; `Type_` is its field `Type`. -/
structure SWEAgentProblemStatement where
  Type_ : String
  GitHubURL : String
deriving DecidableEq, Repr

structure SWEAgentRepo where
  GitHubURL : String
deriving DecidableEq, Repr

structure SWEAgentEnv where
  Repo : SWEAgentRepo
deriving DecidableEq, Repr

structure SWEAgentActions where
  OpenPR : Bool
deriving DecidableEq, Repr

/-- The type `SWEAgentRunRequest`; the map `EnvVars` is its list of entries. -/
structure SWEAgentRunRequest where
  Agent : SWEAgentModel
  ProblemStatement : SWEAgentProblemStatement
  Env : SWEAgentEnv
  Actions : SWEAgentActions
  EnvVars : List (String × String)
deriving DecidableEq, Repr

structure SWEAgentRunResponse where
  JobID : String
  Status : String
  Message : String
deriving DecidableEq, Repr

/-- The standard-library calls of `CallSWEAgent` that the embedding takes as given. -/
structure AgentDeps where
  jsonMarshal : SWEAgentRunRequest → Except String String
  NewRequest : String → String → String → Except String Request
  Do : Request → Except String Response
  jsonUnmarshal : String → Except String SWEAgentRunResponse

/-- Lines 119-146 of `CallSWEAgent`: the request body. -/
def sweAgentRunRequest (cfg : SWEAgentConfig) (owner repo : String) (issueNumber : Int) :
    SWEAgentRunRequest :=
  let issueURL := "https://github.com/" ++ owner ++ "/" ++ repo ++ "/issues/" ++ fmtD issueNumber
  let repoURL := "https://github.com/" ++ owner ++ "/" ++ repo
  { Agent := { Model :=
      { Name := cfg.AzureOpenAIModel
        APIBase := cfg.AzureOpenAIAPIBase
        APIVersion := cfg.AzureAPIVersion
        APIKey := cfg.AzureOpenAIAPIKey } }
    ProblemStatement := { Type_ := "github", GitHubURL := issueURL }
    Env := { Repo := { GitHubURL := repoURL } }
    Actions := { OpenPR := true }
    EnvVars := [("GITHUB_TOKEN", cfg.GitHubToken)] }

/-- Line 153 of `CallSWEAgent`: the target URL. -/
def sweAgentTarget (cfg : SWEAgentConfig) : String :=
  TrimSuffix cfg.Endpoint "/" ++ "/run"

/-- Lines 167-181 of `CallSWEAgent`: read, classify and decode. -/
def sweAgentResult (std : AgentDeps) (resp : Response) : Except String SWEAgentRunResponse :=
  match resp.Body with
  | .error err => .error ("failed to read SWE Agent response: " ++ err)
  | .ok respBody =>
    if resp.StatusCode < 200 ∨ resp.StatusCode ≥ 300 then
      .error ("SWE Agent returned " ++ resp.Status ++ ": " ++ respBody)
    else
      match std.jsonUnmarshal respBody with
      | .error err => .error ("failed to decode SWE Agent response: " ++ err)
      | .ok sweResp => .ok sweResp

/-- Lines 118-165 of `CallSWEAgent`: build the request and send it. -/
def sweAgentExchange (std : AgentDeps) (cfg : SWEAgentConfig) (owner repo : String)
    (issueNumber : Int) : Except String Response :=
  match std.jsonMarshal (sweAgentRunRequest cfg owner repo issueNumber) with
  | .error err => .error ("failed to marshal SWE Agent request: " ++ err)
  | .ok body =>
    match std.NewRequest "POST" (sweAgentTarget cfg) body with
    | .error err => .error ("failed to create SWE Agent request: " ++ err)
    | .ok req =>
      let req := req.SetHeader "Content-Type" "application/json"
      match std.Do req with
      | .error err => .error ("SWE Agent request failed: " ++ err)
      | .ok resp => .ok resp

/-- The function `CallSWEAgent` (swe_agent.go:118-182). -/
def CallSWEAgent (std : AgentDeps) (cfg : SWEAgentConfig) (owner repo : String)
    (issueNumber : Int) : Except String SWEAgentRunResponse :=
  match sweAgentExchange std cfg owner repo issueNumber with
  | .error err => .error err
  | .ok resp => sweAgentResult std resp

/-! ## Specification-side vocabulary -/

/-- A value is blank when it is empty or consists of white space only. -/
def isBlank (s : String) : Bool :=
  s.data.all isSpace

/-- The four chat-config inputs in their fixed order. -/
def azureInputNames : List String :=
  ["AZURE_OPENAI_ENDPOINT", "AZURE_OPENAI_DEPLOYMENT", "AZURE_OPENAI_API_VERSION",
    "AZURE_OPENAI_API_KEY"]

/-- The value of a decimal digit, `none` for any other character. -/
def digitValue (c : Char) : Option Nat :=
  if 48 ≤ c.toNat ∧ c.toNat ≤ 57 then some (c.toNat - 48) else none

/-- The number that a run of decimal digits denotes, read from the left onto `acc`. -/
def readDigits : List Char → Nat → Option Nat
  | [], acc => some acc
  | c :: cs, acc =>
    match digitValue c with
    | some d => readDigits cs (acc * 10 + d)
    | none => none

/-- The natural number that a text denotes in decimal notation: one digit or more,
with no leading zero except in "0" itself. -/
def readNatural (ds : List Char) : Option Nat :=
  if ds = [] then none
  else if ds.head? = some '0' ∧ ds ≠ ['0'] then none
  else readDigits ds 0

/-- The integer that a text denotes in decimal notation: a natural number, or a
minus sign followed by a natural number other than zero; `none` for any other text. -/
def readDecimal (s : String) : Option Int :=
  match s.data with
  | [] => none
  | c :: ds =>
    if c = '-' then
      match readNatural ds with
      | some n => if n = 0 then none else some (-(n : Int))
      | none => none
    else (readNatural (c :: ds)).map Int.ofNat

/-- The text `t` occurs in the text `s`. -/
def Contains (s t : String) : Prop :=
  ∃ a b : String, s = a ++ t ++ b

/-- The text `s` begins with `t`. -/
def StartsWith (s t : String) : Prop :=
  ∃ b : String, s = t ++ b

/-- The text `s` ends with `t`. -/
def EndsWith (s t : String) : Prop :=
  ∃ a : String, s = a ++ t

/-- A path segment that `path.Clean` keeps as it is: not empty, not ".", not "..",
and without a slash. -/
def realSegment (s : String) : Prop :=
  s ≠ "" ∧ s ≠ "." ∧ s ≠ ".." ∧ '/' ∉ s.data

/-- The rooted path with the given segments: each one preceded by a slash. -/
def rootedPath (segs : List String) : String :=
  ⟨(segs.map (fun s => '/' :: s.data)).flatten⟩

/-- The relative path with the given segments: the first one, then each of the
others preceded by a slash. -/
def relPath : List String → String
  | [] => ""
  | s :: segs => s ++ rootedPath segs

/-- A base path that `path.Clean` keeps as it is, up to one trailing slash: rooted
with the segments `segs`, or relative with `ups` segments ".." followed by the
segments `segs`; in both cases with or without a trailing slash. -/
def basePath (rooted : Bool) (ups : Nat) (segs : List String) (trailing : Bool) : String :=
  (if rooted then rootedPath segs else relPath (List.replicate ups ".." ++ segs)) ++
    (if trailing then "/" else "")

/-- The result of the chat client is the upstream-status error for `resp`. -/
def isChatStatusError (resp : Response) (r : Except String String) : Prop :=
  ∃ msg : String, r = .error ("azure openai returned " ++ resp.Status ++ ": " ++ msg)

/-- The result of the agent client is the upstream-status error for `resp`. -/
def isAgentStatusError (resp : Response) (r : Except String SWEAgentRunResponse) : Prop :=
  ∃ msg : String, r = .error ("SWE Agent returned " ++ resp.Status ++ ": " ++ msg)

/-- The error-message extraction with the emptiness test after trimming: the trimmed
envelope message if the envelope is present and that trimmed message is non-empty,
else the trimmed raw body. -/
def extractErrorMessage (envelope : Option azureOpenAIErrorBody) (raw : String) : String :=
  match envelope with
  | some e => if TrimSpace e.Message ≠ "" then TrimSpace e.Message else TrimSpace raw
  | none => TrimSpace raw

/-- The characters of a segment that `path.Clean` keeps as it is. -/
def realChars (seg : List Char) : Prop :=
  seg ≠ [] ∧ seg ≠ ['.'] ∧ seg ≠ ['.', '.'] ∧ '/' ∉ seg

/-- The output of `path.Clean` after it has copied the element `seg`: a slash is
added first unless the output is still at its start. -/
def sepOut (rooted : Bool) (out seg : List Char) : List Char :=
  (if (rooted && out.length != 1) || (!rooted && out.length != 0) then out ++ ['/'] else out)
    ++ seg

/-- A run of `k` slashes. -/
def slashes (k : Nat) : List Char :=
  List.replicate k '/'

/-- An uncleaned rooted path: each segment comes after one slash and `k` more. -/
def encSegs (items : List (Nat × List Char)) : List Char :=
  (items.map (fun it => slashes (it.1 + 1) ++ it.2)).flatten

/-- The cleaned rooted path of the same segments: each one after a single slash. -/
def outSegs (items : List (Nat × List Char)) : List Char :=
  (items.map (fun it => '/' :: it.2)).flatten

/-- The elements that `AzureOpenAIChatCompletion` joins to the base path, as they
stand in the buffer of `path.Join`: "openai" after `j` extra slashes, "deployments",
the segments of the deployment after one extra slash, "chat" after one extra slash,
"completions". -/
def chatItems (j : Nat) (d1 : String) (dsegs : List String) : List (Nat × List Char) :=
  (j, "openai".data) :: (0, "deployments".data) ::
    ((1, d1.data) :: dsegs.map (fun s => (0, s.data)) ++
      [(1, "chat".data), (0, "completions".data)])

/-! ## Sample inputs -/

/-- An environment that sets the chat endpoint, holds a whitespace-only deployment
and leaves the other names unset. -/
def sampleChatEnv : Env := fun k =>
  if k = "AZURE_OPENAI_ENDPOINT" then some "https://example.openai.azure.com/base"
  else if k = "AZURE_OPENAI_DEPLOYMENT" then some " \t"
  else none

/-- The body `{"choices":[{"message":{"role":"assistant","content":" hello "}}]}`. -/
def helloBody : String :=
  "\x7b\"choices\":[\x7b\"message\":\x7b\"role\":\"assistant\",\"content\":\" hello \"\x7d\x7d]\x7d"

/-- The body `{"choices":[]}`. -/
def noChoicesBody : String :=
  "\x7b\"choices\":[]\x7d"

/-- The body `{"error":{"message":"rate limited"}}`. -/
def rateLimitedBody : String :=
  "\x7b\"error\":\x7b\"message\":\"rate limited\"\x7d\x7d"

/-- The body `{"error":{"message":" "}}`, whose message is a single space. -/
def blankMessageBody : String :=
  "\x7b\"error\":\x7b\"message\":\" \"\x7d\x7d"

/-- The body `{"job_id":"abc","status":"queued","message":""}`. -/
def queuedJobBody : String :=
  "\x7b\"job_id\":\"abc\",\"status\":\"queued\",\"message\":\"\"\x7d"

/-- The URL "https://example.openai.azure.com" followed by the path `path`. -/
def sampleURL (path : String) : URL :=
  { Scheme := "https", Opaque := "", User := none, Host := "example.openai.azure.com"
    Path := path, RawPath := "", OmitHost := false, ForceQuery := false, RawQuery := ""
    Fragment := "", RawFragment := "" }

/-- The opaque URL "https:example.com": a scheme and an opaque part, no host, no path. -/
def sampleOpaqueURL : URL :=
  { Scheme := "https", Opaque := "example.com", User := none, Host := ""
    Path := "", RawPath := "", OmitHost := false, ForceQuery := false, RawQuery := ""
    Fragment := "", RawFragment := "" }

/-- The value of `url.Parse` on the sample endpoints. -/
def sampleURLParse (s : String) : Except String URL :=
  if s = "https://example.openai.azure.com/base" then .ok (sampleURL "/base")
  else if s = "https://example.openai.azure.com/a/../b" then .ok (sampleURL "/a/../b")
  else if s = "https:example.com" then .ok sampleOpaqueURL
  else .error "parse error"

/-- The value of `json.Unmarshal` into the chat response shape on the sample bodies. -/
def sampleChatUnmarshal (body : String) : Except String azureOpenAIChatCompletionResponse :=
  if body = helloBody then
    .ok ⟨[⟨⟨"assistant", " hello "⟩⟩], none⟩
  else if body = noChoicesBody then .ok ⟨[], none⟩
  else if body = rateLimitedBody then
    .ok ⟨[], some ⟨"rate limited"⟩⟩
  else if body = blankMessageBody then
    .ok ⟨[], some ⟨" "⟩⟩
  else .error "invalid character 'i' looking for beginning of value"

/-- A stand-in for the standard library and the network in which the peer answers
every request with `resp`. The sample hosts and paths hold no character that Go
escapes, so their escaped forms are the values themselves. -/
def sampleChatDeps (resp : Response) : ChatDeps :=
  { urlParse := sampleURLParse
    EscapedPath := fun u => u.Path
    EscapedFragment := fun u => u.Fragment
    escapeHost := fun h => h
    querySet := fun _ key value => key ++ "=" ++ value
    jsonMarshal := fun _ => .ok "payload"
    NewRequest := fun method url body => .ok ⟨method, url, [], body⟩
    Do := fun _ => .ok resp
    jsonUnmarshal := sampleChatUnmarshal }

/-- A stand-in in which the network refuses every request and the transport error
is the URL that was requested. -/
def sampleRefusingDeps : ChatDeps :=
  { sampleChatDeps ⟨"", 0, .ok ""⟩ with Do := fun req => .error req.URL }

def sampleChatConfig : AzureOpenAIConfig :=
  { Endpoint := "https://example.openai.azure.com/base"
    Deployment := "gpt"
    APIVersion := "2024-06-01"
    APIKey := "secret" }

/-- The value of `json.Unmarshal` into `SWEAgentRunResponse` on the sample bodies. -/
def sampleRunUnmarshal (body : String) : Except String SWEAgentRunResponse :=
  if body = queuedJobBody then
    .ok ⟨"abc", "queued", ""⟩
  else .error "invalid character 'i' looking for beginning of value"

/-- A stand-in for the standard library and the network in which the agent service
answers every request with `resp`. -/
def sampleAgentDeps (resp : Response) : AgentDeps :=
  { jsonMarshal := fun _ => .ok "payload"
    NewRequest := fun method url body => .ok ⟨method, url, [], body⟩
    Do := fun _ => .ok resp
    jsonUnmarshal := sampleRunUnmarshal }

def sampleAgentConfig (endpoint : String) : SWEAgentConfig :=
  { Endpoint := endpoint
    AzureOpenAIAPIBase := "https://example.openai.azure.com"
    AzureOpenAIAPIKey := "secret"
    AzureOpenAIModel := "azure/gpt-5-chat"
    AzureAPIVersion := "2024-06-01"
    GitHubToken := "ghp_token" }

/-! ## Lemmas on `TrimSpace` -/

theorem dropWhile_eq_nil_of_all (p : Char → Bool) :
    ∀ l : List Char, l.all p = true → l.dropWhile p = []
  | [], _ => rfl
  | c :: l, h => by
      simp only [List.all_cons, Bool.and_eq_true] at h
      simp [List.dropWhile_cons, h.1, dropWhile_eq_nil_of_all p l h.2]

theorem all_of_dropWhile_eq_nil (p : Char → Bool) :
    ∀ l : List Char, l.dropWhile p = [] → l.all p = true
  | [], _ => rfl
  | c :: l, h => by
      by_cases hc : p c = true
      · simp only [List.dropWhile_cons, hc, if_true] at h
        simp [hc, all_of_dropWhile_eq_nil p l h]
      · simp [List.dropWhile_cons, hc] at h

theorem dropWhile_all_of_all (p : Char → Bool) :
    ∀ l : List Char, (l.dropWhile p).reverse.all p = true → l.all p = true
  | [], _ => rfl
  | c :: l, h => by
      by_cases hc : p c = true
      · simp only [List.dropWhile_cons, hc, if_true] at h
        simp [hc, dropWhile_all_of_all p l h]
      · simp only [List.dropWhile_cons, hc] at h
        simp only [Bool.false_eq_true, if_false, List.reverse_cons, List.all_append, List.all_cons,
          List.all_nil, Bool.and_true, Bool.and_eq_true] at h
        exact absurd h.2 hc

/-- The function `TrimSpace` returns the empty string exactly on blank values. -/
theorem TrimSpace_eq_empty_iff (s : String) : TrimSpace s = "" ↔ isBlank s = true := by
  unfold TrimSpace isBlank
  constructor
  · intro h
    have h1 : ((s.data.dropWhile isSpace).reverse.dropWhile isSpace).reverse = [] :=
      congrArg String.data h
    have h2 : (s.data.dropWhile isSpace).reverse.dropWhile isSpace = [] := by
      simpa using h1
    exact dropWhile_all_of_all isSpace s.data (all_of_dropWhile_eq_nil isSpace _ h2)
  · intro h
    rw [dropWhile_eq_nil_of_all isSpace s.data h]
    rfl

end Github

namespace Github

/-! ## Configuration resolution -/

/-- C1: whenever at least one of the four chat-config inputs is empty or
whitespace-only, `AzureOpenAIConfigFromEnv` fails and its message is
"missing Azure OpenAI configuration: " followed by the names of exactly the blank
inputs, joined by ", ", in the order endpoint, deployment, api-version, api-key. -/
theorem azure_config_missing_lists_blank_inputs (urlParse : String → Except String URL)
    (env : Env) (h : ∃ k ∈ azureInputNames, isBlank (Getenv env k) = true) :
    AzureOpenAIConfigFromEnv urlParse env =
      .error ("missing Azure OpenAI configuration: " ++
        ", ".intercalate (azureInputNames.filter (fun k => isBlank (Getenv env k)))) := by
  simp only [azureInputNames, List.mem_cons, List.mem_singleton, exists_eq_or_imp,
    exists_eq_left, List.not_mem_nil, false_and, exists_false, or_false] at h
  simp only [AzureOpenAIConfigFromEnv, TrimSpace_eq_empty_iff, azureInputNames, Join]
  cases h1 : isBlank (Getenv env "AZURE_OPENAI_ENDPOINT") <;>
  cases h2 : isBlank (Getenv env "AZURE_OPENAI_DEPLOYMENT") <;>
  cases h3 : isBlank (Getenv env "AZURE_OPENAI_API_VERSION") <;>
  cases h4 : isBlank (Getenv env "AZURE_OPENAI_API_KEY") <;>
  simp [h1, h2, h3, h4, List.filter] at h ⊢

end Github

namespace Github

/-- Witness of C1: with the endpoint set, the deployment whitespace-only and the
other two inputs unset, the message lists deployment, api-version and api-key. -/
theorem azure_config_missing_lists_blank_inputs_witness :
    AzureOpenAIConfigFromEnv sampleURLParse sampleChatEnv =
      .error ("missing Azure OpenAI configuration: " ++
        "AZURE_OPENAI_DEPLOYMENT, AZURE_OPENAI_API_VERSION, AZURE_OPENAI_API_KEY") :=
  (azure_config_missing_lists_blank_inputs sampleURLParse sampleChatEnv
    ⟨"AZURE_OPENAI_DEPLOYMENT", by decide, by decide⟩).trans rfl

end Github

namespace Github

/-! ## Lemmas on suffixes -/

theorem HasSuffix_iff (s t : String) : HasSuffix s t = true ↔ EndsWith s t := by
  unfold HasSuffix EndsWith
  rw [List.isSuffixOf_iff_suffix]
  constructor
  · rintro ⟨l, hl⟩
    exact ⟨⟨l⟩, String.ext (by simp [hl])⟩
  · rintro ⟨a, ha⟩
    exact ⟨a.data, by simp [ha]⟩

theorem TrimSuffix_append (a t : String) : TrimSuffix (a ++ t) t = a := by
  have h : HasSuffix (a ++ t) t = true := (HasSuffix_iff _ _).2 ⟨a, rfl⟩
  unfold TrimSuffix
  rw [if_pos h]
  apply String.ext
  simp

theorem TrimSuffix_of_not_EndsWith (s t : String) (h : ¬ EndsWith s t) : TrimSuffix s t = s := by
  unfold TrimSuffix
  rw [if_neg]
  rwa [HasSuffix_iff]

theorem append_right_cancel_string {a b t : String} (h : a ++ t = b ++ t) : a = b := by
  simpa [String.ext_iff] using h

theorem append_left_cancel_string {a b t : String} (h : t ++ a = t ++ b) : a = b := by
  simpa [String.ext_iff] using h

/-! ## The agent job client: request construction -/

theorem digitValue_digitChar (m : Nat) (h : m < 10) :
    digitValue (Nat.digitChar m) = some m ∧ (Nat.digitChar m = '0' → m = 0) ∧
      Nat.digitChar m ≠ '-' := by
  interval_cases m <;> decide

theorem readDigits_append_digit (c : Char) (d : Nat) (hc : digitValue c = some d) :
    ∀ (D rest : List Char) (acc v : Nat),
      (∀ r a, readDigits (D ++ r) a = readDigits r (a * 10 ^ D.length + v)) →
      readDigits ((D ++ [c]) ++ rest) acc =
        readDigits rest (acc * 10 ^ (D ++ [c]).length + (v * 10 + d)) := by
  intro D rest acc v hD
  rw [List.append_assoc, hD]
  simp only [List.singleton_append, readDigits, hc, List.length_append, List.length_singleton]
  congr 1
  ring

/-- The digits that `Nat.repr` writes: they read back as the number, the first one
is a digit, and it is a zero only for the number zero, written "0". -/
theorem toDigitsCore_reads_back : ∀ (fuel n : Nat) (ds : List Char), n < fuel →
    ∃ D : List Char, Nat.toDigitsCore 10 fuel n ds = D ++ ds ∧
      (∀ r a, readDigits (D ++ r) a = readDigits r (a * 10 ^ D.length + n)) ∧
      ∃ c t, D = c :: t ∧ (∃ v, digitValue c = some v) ∧ c ≠ '-' ∧ (c = '0' → n = 0 ∧ t = [])
  | 0, _, _, h => absurd h (Nat.not_lt_zero _)
  | fuel + 1, n, ds, h => by
    have hmod : n % 10 < 10 := Nat.mod_lt _ (by decide)
    obtain ⟨hval, hzero, hminus⟩ := digitValue_digitChar (n % 10) hmod
    by_cases hq : n / 10 = 0
    · refine ⟨[Nat.digitChar (n % 10)], by simp [Nat.toDigitsCore, hq], ?_,
        _, [], rfl, ⟨_, hval⟩, hminus, ?_⟩
      · intro r a
        have hn : n % 10 = n := by omega
        have hval2 := hval
        rw [hn] at hval2
        simp [readDigits, hval, hval2, hn]
      · intro hc
        have h0 := hzero hc
        exact ⟨by omega, rfl⟩
    · obtain ⟨D, hD, hread, c, t, hct, hdig, hcm, hc0⟩ :=
        toDigitsCore_reads_back fuel (n / 10) (Nat.digitChar (n % 10) :: ds) (by omega)
      refine ⟨D ++ [Nat.digitChar (n % 10)], by simp [Nat.toDigitsCore, hq, hD], ?_,
        c, t ++ [Nat.digitChar (n % 10)], by simp [hct], hdig, hcm, ?_⟩
      · intro r a
        rw [readDigits_append_digit _ _ hval D r a (n / 10) hread]
        congr 1
        have hn : n / 10 * 10 + n % 10 = n := by omega
        rw [hn]
      · intro hc
        exact absurd (hc0 hc).1 hq

theorem readNatural_repr (n : Nat) :
    readNatural (Nat.repr n).data = some n ∧
      ∃ c t, (Nat.repr n).data = c :: t ∧ c ≠ '-' := by
  obtain ⟨D, hD, hread, c, t, hct, hdig, hcm, hc0⟩ :=
    toDigitsCore_reads_back (n + 1) n [] (Nat.lt_succ_self n)
  have hdata : (Nat.repr n).data = D := by
    simp [Nat.repr, Nat.toDigits, hD, List.asString]
  refine ⟨?_, c, t, by rw [hdata, hct], hcm⟩
  rw [hdata]
  have hne : D ≠ [] := by simp [hct]
  have hlead : ¬ (D.head? = some '0' ∧ D ≠ ['0']) := by
    rintro ⟨h1, h2⟩
    rw [hct] at h1 h2
    simp only [List.head?_cons, Option.some.injEq] at h1
    obtain ⟨-, ht⟩ := hc0 h1
    exact h2 (by rw [h1, ht])
  have hr := hread [] 0
  simp only [List.append_nil, Nat.zero_mul, Nat.zero_add, readDigits] at hr
  simp only [readNatural, if_neg hne, if_neg hlead, hr]

/-- The verb `%d` writes an integer in decimal notation. -/
theorem readDecimal_fmtD (n : Int) : readDecimal (fmtD n) = some n := by
  cases n with
  | ofNat m =>
    obtain ⟨hnat, c, t, hct, hcm⟩ := readNatural_repr m
    simp only [fmtD, readDecimal, hct, if_neg hcm]
    rw [← hct, hnat]
    rfl
  | negSucc m =>
    obtain ⟨hnat, -⟩ := readNatural_repr (m + 1)
    have hdata : ("-" ++ Nat.repr (m + 1)).data = '-' :: (Nat.repr (m + 1)).data := by
      simp
    simp only [fmtD, readDecimal, hdata, if_true, hnat]
    simp [Int.negSucc_eq]

/-- C6: for every owner, repo and integer issue number, the request body that
`CallSWEAgent` hands to `json.Marshal`, and whose marshalled form it posts to the
target URL, carries the issue URL "https://github.com/<owner>/<repo>/issues/<n>"
where <n> is the issue number in decimal notation, the repository URL
"https://github.com/<owner>/<repo>" (so the issue URL is the repository URL
followed by "/issues/<n>"), `open_pr` true and the configured token under
"GITHUB_TOKEN"; ("acme","widgets",42) gives
https://github.com/acme/widgets/issues/42 and https://github.com/acme/widgets. -/
theorem call_swe_agent_request_urls (cfg : SWEAgentConfig) (owner repo : String)
    (issueNumber : Int) :
    (∃ (reqBody : SWEAgentRunRequest) (number : String),
      readDecimal number = some issueNumber ∧
      reqBody.ProblemStatement.GitHubURL =
        "https://github.com/" ++ owner ++ "/" ++ repo ++ "/issues/" ++ number ∧
      reqBody.Env.Repo.GitHubURL = "https://github.com/" ++ owner ++ "/" ++ repo ∧
      reqBody.ProblemStatement.GitHubURL =
        reqBody.Env.Repo.GitHubURL ++ ("/issues/" ++ number) ∧
      reqBody.Actions.OpenPR = true ∧
      reqBody.EnvVars.lookup "GITHUB_TOKEN" = some cfg.GitHubToken ∧
      ∀ std : AgentDeps, CallSWEAgent std cfg owner repo issueNumber =
        match std.jsonMarshal reqBody with
        | .error err => .error ("failed to marshal SWE Agent request: " ++ err)
        | .ok body =>
          match std.NewRequest "POST" (TrimSuffix cfg.Endpoint "/" ++ "/run") body with
          | .error err => .error ("failed to create SWE Agent request: " ++ err)
          | .ok req =>
            match std.Do (req.SetHeader "Content-Type" "application/json") with
            | .error err => .error ("SWE Agent request failed: " ++ err)
            | .ok resp => sweAgentResult std resp) ∧
    (∃ reqBody : SWEAgentRunRequest,
      reqBody.ProblemStatement.GitHubURL = "https://github.com/acme/widgets/issues/42" ∧
      reqBody.Env.Repo.GitHubURL = "https://github.com/acme/widgets" ∧
      ∀ std : AgentDeps, CallSWEAgent std cfg "acme" "widgets" 42 =
        match std.jsonMarshal reqBody with
        | .error err => .error ("failed to marshal SWE Agent request: " ++ err)
        | .ok body =>
          match std.NewRequest "POST" (TrimSuffix cfg.Endpoint "/" ++ "/run") body with
          | .error err => .error ("failed to create SWE Agent request: " ++ err)
          | .ok req =>
            match std.Do (req.SetHeader "Content-Type" "application/json") with
            | .error err => .error ("SWE Agent request failed: " ++ err)
            | .ok resp => sweAgentResult std resp) := by
  have hcall : ∀ (o r : String) (n : Int) (std : AgentDeps), CallSWEAgent std cfg o r n =
      match std.jsonMarshal (sweAgentRunRequest cfg o r n) with
      | .error err => .error ("failed to marshal SWE Agent request: " ++ err)
      | .ok body =>
        match std.NewRequest "POST" (TrimSuffix cfg.Endpoint "/" ++ "/run") body with
        | .error err => .error ("failed to create SWE Agent request: " ++ err)
        | .ok req =>
          match std.Do (req.SetHeader "Content-Type" "application/json") with
          | .error err => .error ("SWE Agent request failed: " ++ err)
          | .ok resp => sweAgentResult std resp := by
    intro o r n std
    simp only [CallSWEAgent, sweAgentExchange, sweAgentTarget]
    cases h1 : std.jsonMarshal (sweAgentRunRequest cfg o r n) with
    | error err => rfl
    | ok body =>
      simp only []
      cases h2 : std.NewRequest "POST" (TrimSuffix cfg.Endpoint "/" ++ "/run") body with
      | error err => rfl
      | ok req =>
        simp only []
        cases h3 : std.Do (req.SetHeader "Content-Type" "application/json") with
        | error err => rfl
        | ok resp => rfl
  constructor
  · refine ⟨sweAgentRunRequest cfg owner repo issueNumber, fmtD issueNumber,
      readDecimal_fmtD issueNumber, rfl, rfl, ?_, rfl, ?_, hcall owner repo issueNumber⟩
    · simp [sweAgentRunRequest, String.append_assoc]
    · simp [sweAgentRunRequest, List.lookup]
  · refine ⟨sweAgentRunRequest cfg "acme" "widgets" 42, ?_, rfl, hcall "acme" "widgets" 42⟩
    show "https://github.com/" ++ "acme" ++ "/" ++ "widgets" ++ "/issues/" ++ fmtD 42 = _
    decide

/-- C10 (as amended): the target URL of `CallSWEAgent` is the endpoint with one
trailing slash removed, followed by "/run". It is e ++ "/run" when e does not end in
"/"; the target for e ++ "/" is e ++ "/run" for every e, hence the target for e when
e does not end in "/"; and the part before the final "/run" does not end in "/" when
e does not end in "//". -/
theorem swe_agent_target_one_slash_stripped (cfg : SWEAgentConfig) :
    sweAgentTarget cfg = TrimSuffix cfg.Endpoint "/" ++ "/run" ∧
    (¬ EndsWith cfg.Endpoint "/" → sweAgentTarget cfg = cfg.Endpoint ++ "/run") ∧
    sweAgentTarget { cfg with Endpoint := cfg.Endpoint ++ "/" } = cfg.Endpoint ++ "/run" ∧
    (¬ EndsWith cfg.Endpoint "/" →
      sweAgentTarget { cfg with Endpoint := cfg.Endpoint ++ "/" } = sweAgentTarget cfg) ∧
    (¬ EndsWith cfg.Endpoint "//" →
      ∀ before : String, sweAgentTarget cfg = before ++ "/run" → ¬ EndsWith before "/") := by
  have h1 : ¬ EndsWith cfg.Endpoint "/" → sweAgentTarget cfg = cfg.Endpoint ++ "/run" := by
    intro h
    simp only [sweAgentTarget, TrimSuffix_of_not_EndsWith _ _ h]
  have h2 : sweAgentTarget { cfg with Endpoint := cfg.Endpoint ++ "/" } =
      cfg.Endpoint ++ "/run" := by
    simp only [sweAgentTarget, TrimSuffix_append]
  refine ⟨rfl, h1, h2, fun h => by rw [h2, h1 h], ?_⟩
  intro hdd before hb hslash
  have hpre : before = TrimSuffix cfg.Endpoint "/" :=
    (append_right_cancel_string (by simpa only [sweAgentTarget] using hb)).symm
  by_cases hs : EndsWith cfg.Endpoint "/"
  · obtain ⟨a, ha⟩ := hs
    rw [ha, TrimSuffix_append] at hpre
    obtain ⟨b, hb2⟩ := hslash
    apply hdd
    refine ⟨b, ?_⟩
    rw [ha, ← hpre, hb2, String.append_assoc]
    rfl
  · rw [TrimSuffix_of_not_EndsWith _ _ hs] at hpre
    exact hs (hpre ▸ hslash)

/-- Counterexample to C10 as stated: for the endpoint "http://localhost:8000//" the
part of the target before "/run" is "http://localhost:8000/", which ends in "/", and
the target for "http://localhost:8000/" ++ "/" differs from the target for
"http://localhost:8000/". -/
theorem swe_agent_target_double_slash :
    sweAgentTarget (sampleAgentConfig "http://localhost:8000//") =
        "http://localhost:8000/" ++ "/run" ∧
    sweAgentTarget (sampleAgentConfig ("http://localhost:8000/" ++ "/")) ≠
        sweAgentTarget (sampleAgentConfig "http://localhost:8000/") := by
  decide

end Github

namespace Github

/-! ## More lemmas on `TrimSpace` -/

end Github

namespace Github

/-! ## The chat completion client: response classification -/

theorem chat_completion_of_exchange {std : ChatDeps} {cfg : AzureOpenAIConfig}
    {systemPrompt userPrompt : String} {resp : Response}
    (hx : chatCompletionExchange std cfg systemPrompt userPrompt = .ok resp) :
    AzureOpenAIChatCompletion std cfg systemPrompt userPrompt =
      chatCompletionResult std resp := by
  simp only [AzureOpenAIChatCompletion, hx]

theorem decode_error_ne_status_error (e status msg : String) :
    "failed to decode Azure OpenAI response: " ++ e ≠
      "azure openai returned " ++ status ++ ": " ++ msg := by
  intro h
  have h2 := congrArg (fun s => s.data.head?) h
  simp at h2

theorem no_colon_ne_status_error (t status msg : String) (ht : ':' ∉ t.data) :
    "azure openai returned " ++ t ≠ "azure openai returned " ++ status ++ ": " ++ msg := by
  intro h
  rw [String.append_assoc, String.append_assoc] at h
  have h2 := append_left_cancel_string h
  apply ht
  rw [h2]
  simp

/-- C2: whatever the HTTP status code, when the response body fails to JSON-decode
`AzureOpenAIChatCompletion` fails with "failed to decode Azure OpenAI response: "
followed by the decoder's error, and that is never the upstream-status error. -/
theorem chat_decode_error_precedes_status (std : ChatDeps) (cfg : AzureOpenAIConfig)
    (systemPrompt userPrompt : String) (resp : Response) (body e : String)
    (hx : chatCompletionExchange std cfg systemPrompt userPrompt = .ok resp)
    (hb : resp.Body = .ok body) (hd : std.jsonUnmarshal body = .error e) :
    AzureOpenAIChatCompletion std cfg systemPrompt userPrompt =
        .error ("failed to decode Azure OpenAI response: " ++ e) ∧
    ¬ isChatStatusError resp (AzureOpenAIChatCompletion std cfg systemPrompt userPrompt) := by
  have hr : AzureOpenAIChatCompletion std cfg systemPrompt userPrompt =
      .error ("failed to decode Azure OpenAI response: " ++ e) := by
    rw [chat_completion_of_exchange hx]
    simp only [chatCompletionResult, hb, hd]
  refine ⟨hr, ?_⟩
  rintro ⟨msg, hmsg⟩
  rw [hr] at hmsg
  exact decode_error_ne_status_error e resp.Status msg (Except.error.inj hmsg)

/-- Witness of C2: a 500 response with the body "internal failure" yields the decode
error, not the status error. -/
theorem chat_decode_error_precedes_status_witness :
    AzureOpenAIChatCompletion
        (sampleChatDeps ⟨"500 Internal Server Error", 500, .ok "internal failure"⟩)
        sampleChatConfig "system" "user" =
      .error ("failed to decode Azure OpenAI response: " ++
        "invalid character 'i' looking for beginning of value") ∧
    ¬ isChatStatusError ⟨"500 Internal Server Error", 500, .ok "internal failure"⟩
        (AzureOpenAIChatCompletion
          (sampleChatDeps ⟨"500 Internal Server Error", 500, .ok "internal failure"⟩)
          sampleChatConfig "system" "user") :=
  chat_decode_error_precedes_status
    (sampleChatDeps ⟨"500 Internal Server Error", 500, .ok "internal failure"⟩)
    sampleChatConfig "system" "user" ⟨"500 Internal Server Error", 500, .ok "internal failure"⟩
    "internal failure" "invalid character 'i' looking for beginning of value" rfl rfl rfl

end Github

namespace Github

theorem chat_result_non2xx {std : ChatDeps} {resp : Response} {body : String}
    {decoded : azureOpenAIChatCompletionResponse} (hb : resp.Body = .ok body)
    (hd : std.jsonUnmarshal body = .ok decoded)
    (hs : resp.StatusCode < 200 ∨ resp.StatusCode ≥ 300) :
    chatCompletionResult std resp =
      .error ("azure openai returned " ++ resp.Status ++ ": " ++
        extractErrorMessage decoded.Error body) := by
  simp only [chatCompletionResult, hb, hd, if_pos hs, extractErrorMessage,
    azureOpenAIChatCompletionResponse.ErrorMessage]
  cases hE : decoded.Error with
  | none =>
    have h0 : TrimSpace "" = "" := by decide
    simp [h0]
  | some env =>
    by_cases hm : TrimSpace env.Message = "" <;> simp [hm]

end Github

namespace Github

theorem chat_result_2xx {std : ChatDeps} {resp : Response} {body : String}
    {decoded : azureOpenAIChatCompletionResponse} (hb : resp.Body = .ok body)
    (hd : std.jsonUnmarshal body = .ok decoded)
    (hs : 200 ≤ resp.StatusCode ∧ resp.StatusCode < 300) :
    chatCompletionResult std resp =
      match decoded.Choices with
      | [] => .error "azure openai returned no choices"
      | first :: _ =>
        if isBlank first.Message.Content then .error "azure openai returned empty content"
        else .ok (TrimSpace first.Message.Content) := by
  have hns : ¬ (resp.StatusCode < 200 ∨ resp.StatusCode ≥ 300) := by omega
  simp only [chatCompletionResult, hb, hd, if_neg hns]
  cases decoded.Choices with
  | nil => rfl
  | cons first rest => simp only [TrimSpace_eq_empty_iff]

end Github

namespace Github

/-! ## The agent job client: response classification -/

theorem call_swe_agent_of_exchange {std : AgentDeps} {cfg : SWEAgentConfig}
    {owner repo : String} {issueNumber : Int} {resp : Response}
    (hx : sweAgentExchange std cfg owner repo issueNumber = .ok resp) :
    CallSWEAgent std cfg owner repo issueNumber = sweAgentResult std resp := by
  simp only [CallSWEAgent, hx]

theorem agent_result_non2xx {std : AgentDeps} {resp : Response} {body : String}
    (hb : resp.Body = .ok body) (hs : resp.StatusCode < 200 ∨ resp.StatusCode ≥ 300) :
    sweAgentResult std resp =
      .error ("SWE Agent returned " ++ resp.Status ++ ": " ++ body) := by
  simp only [sweAgentResult, hb, if_pos hs]

theorem agent_result_2xx {std : AgentDeps} {resp : Response} {body : String}
    (hb : resp.Body = .ok body) (hs : 200 ≤ resp.StatusCode ∧ resp.StatusCode < 300) :
    sweAgentResult std resp =
      match std.jsonUnmarshal body with
      | .error err => .error ("failed to decode SWE Agent response: " ++ err)
      | .ok sweResp => .ok sweResp := by
  have hns : ¬ (resp.StatusCode < 200 ∨ resp.StatusCode ≥ 300) := by omega
  simp only [sweAgentResult, hb, if_neg hns]

theorem agent_decode_error_ne_status_error (e status msg : String) :
    "failed to decode SWE Agent response: " ++ e ≠
      "SWE Agent returned " ++ status ++ ": " ++ msg := by
  intro h
  have h2 := congrArg (fun s => s.data.head?) h
  simp at h2

/-- C7: for every non-2xx response and every response body, `CallSWEAgent` fails
with "SWE Agent returned <status>: <body>", whose text contains the HTTP status text
and the raw body verbatim; the JSON decoder plays no part in the result, which is
never the decode error. -/
theorem call_swe_agent_non2xx_raw_body (std : AgentDeps) (cfg : SWEAgentConfig)
    (owner repo : String) (issueNumber : Int) (resp : Response) (body : String)
    (hx : sweAgentExchange std cfg owner repo issueNumber = .ok resp)
    (hb : resp.Body = .ok body) (hs : resp.StatusCode < 200 ∨ resp.StatusCode ≥ 300) :
    CallSWEAgent std cfg owner repo issueNumber =
        .error ("SWE Agent returned " ++ resp.Status ++ ": " ++ body) ∧
    (∀ err, CallSWEAgent std cfg owner repo issueNumber = .error err →
      Contains err resp.Status ∧ Contains err body) ∧
    (∀ decoder, CallSWEAgent { std with jsonUnmarshal := decoder } cfg owner repo issueNumber =
      CallSWEAgent std cfg owner repo issueNumber) ∧
    (∀ e, CallSWEAgent std cfg owner repo issueNumber ≠
      .error ("failed to decode SWE Agent response: " ++ e)) := by
  have hr := (call_swe_agent_of_exchange hx).trans (agent_result_non2xx hb hs)
  refine ⟨hr, ?_, ?_, ?_⟩
  · intro err herr
    rw [hr] at herr
    have he := Except.error.inj herr
    subst he
    exact ⟨⟨"SWE Agent returned ", ": " ++ body, by simp only [String.append_assoc]⟩,
      ⟨"SWE Agent returned " ++ resp.Status ++ ": ", "", by simp⟩⟩
  · intro decoder
    have hx2 : sweAgentExchange { std with jsonUnmarshal := decoder } cfg owner repo
        issueNumber = .ok resp := hx
    rw [hr, call_swe_agent_of_exchange hx2, agent_result_non2xx hb hs]
  · intro e h
    rw [hr] at h
    exact agent_decode_error_ne_status_error e resp.Status body (Except.error.inj h).symm

/-- Witness of C7: a 500 response with the body " boom \n", which is not JSON, gives
an error that carries the status text and the body with its white space. -/
theorem call_swe_agent_non2xx_raw_body_witness :
    CallSWEAgent (sampleAgentDeps ⟨"500 Internal Server Error", 500, .ok " boom \n"⟩)
        (sampleAgentConfig "http://localhost:8000") "acme" "widgets" 42 =
      .error "SWE Agent returned 500 Internal Server Error:  boom \n" :=
  (call_swe_agent_non2xx_raw_body
    (sampleAgentDeps ⟨"500 Internal Server Error", 500, .ok " boom \n"⟩)
    (sampleAgentConfig "http://localhost:8000") "acme" "widgets" 42
    ⟨"500 Internal Server Error", 500, .ok " boom \n"⟩ " boom \n" rfl rfl
    (Or.inr (by decide))).1.trans rfl

/-! ## Status classification in both clients -/

/-- C8 (as amended): both clients classify a response as an upstream-status failure
exactly when its status code is below 200 or is 300 or above, that is outside the
closed range [200,299]: for such a code `AzureOpenAIChatCompletion` (given a body
that decodes) and `CallSWEAgent` fail with the status error, and for every code from
200 to 299 they do not. -/
theorem status_error_iff_outside_200_299 :
    (∀ (std : ChatDeps) (cfg : AzureOpenAIConfig) (systemPrompt userPrompt : String)
        (resp : Response) (body : String) (decoded : azureOpenAIChatCompletionResponse),
      chatCompletionExchange std cfg systemPrompt userPrompt = .ok resp →
      resp.Body = .ok body → std.jsonUnmarshal body = .ok decoded →
      (isChatStatusError resp (AzureOpenAIChatCompletion std cfg systemPrompt userPrompt) ↔
        (resp.StatusCode < 200 ∨ resp.StatusCode ≥ 300))) ∧
    (∀ (std : AgentDeps) (cfg : SWEAgentConfig) (owner repo : String) (issueNumber : Int)
        (resp : Response) (body : String),
      sweAgentExchange std cfg owner repo issueNumber = .ok resp →
      resp.Body = .ok body →
      (isAgentStatusError resp (CallSWEAgent std cfg owner repo issueNumber) ↔
        (resp.StatusCode < 200 ∨ resp.StatusCode ≥ 300))) := by
  constructor
  · intro std cfg systemPrompt userPrompt resp body decoded hx hb hd
    constructor
    · rintro ⟨msg, hmsg⟩
      by_contra hs
      have h2 : 200 ≤ resp.StatusCode ∧ resp.StatusCode < 300 := by omega
      rw [(chat_completion_of_exchange hx).trans (chat_result_2xx hb hd h2)] at hmsg
      cases hC : decoded.Choices with
      | nil =>
        rw [hC] at hmsg
        exact no_colon_ne_status_error "no choices" resp.Status msg (by decide)
          (Except.error.inj hmsg)
      | cons first rest =>
        rw [hC] at hmsg
        cases hB : isBlank first.Message.Content with
        | true =>
          simp only [hB, if_true] at hmsg
          exact no_colon_ne_status_error "empty content" resp.Status msg (by decide)
            (Except.error.inj hmsg)
        | false =>
          simp [hB] at hmsg
    · intro hs
      exact ⟨_, (chat_completion_of_exchange hx).trans (chat_result_non2xx hb hd hs)⟩
  · intro std cfg owner repo issueNumber resp body hx hb
    constructor
    · rintro ⟨msg, hmsg⟩
      by_contra hs
      have h2 : 200 ≤ resp.StatusCode ∧ resp.StatusCode < 300 := by omega
      rw [(call_swe_agent_of_exchange hx).trans (agent_result_2xx hb h2)] at hmsg
      cases hU : std.jsonUnmarshal body with
      | error e =>
        rw [hU] at hmsg
        exact agent_decode_error_ne_status_error e resp.Status msg (Except.error.inj hmsg)
      | ok v =>
        rw [hU] at hmsg
        simp at hmsg
    · intro hs
      exact ⟨_, (call_swe_agent_of_exchange hx).trans (agent_result_non2xx hb hs)⟩

/-- Counterexample to C8 as stated: the status code 299 lies outside the half-open
range [200,299), yet with it both clients succeed instead of failing with the status
error. -/
theorem status_299_is_success :
    ¬ ((200 : Int) ≤ 299 ∧ (299 : Int) < 299) ∧
    AzureOpenAIChatCompletion
        (sampleChatDeps ⟨"299 Miscellaneous Persistent Warning", 299,
          .ok helloBody⟩)
        sampleChatConfig "system" "user" = .ok "hello" ∧
    CallSWEAgent
        (sampleAgentDeps ⟨"299 Miscellaneous Persistent Warning", 299,
          .ok queuedJobBody⟩)
        (sampleAgentConfig "http://localhost:8000") "acme" "widgets" 42 =
      .ok ⟨"abc", "queued", ""⟩ :=
  ⟨by decide, rfl, rfl⟩

end Github


namespace Github

/-! ## `path.Clean` on paths without dot segments -/

theorem cleanLoop_nil (rooted : Bool) (fuel : Nat) (out : List Char) (dotdot : Nat) :
    cleanLoop rooted fuel [] out dotdot = out := by
  cases fuel <;> rfl

theorem length_dropWhile_cons_le (c : Char) (t : List Char) (hc : c ≠ '/') :
    ((c :: t).dropWhile (· != '/')).length ≤ t.length := by
  have h : (c :: t).dropWhile (· != '/') = t.dropWhile (· != '/') := by
    simp [List.dropWhile_cons, hc]
  rw [h]
  exact (List.dropWhile_sublist _).length_le

/-- Any amount of fuel that covers the unread input gives the same result. -/
theorem cleanLoop_fuel (rooted : Bool) : ∀ (fuel fuel2 : Nat) (rest out : List Char)
    (dotdot : Nat), rest.length ≤ fuel → rest.length ≤ fuel2 →
    cleanLoop rooted fuel rest out dotdot = cleanLoop rooted fuel2 rest out dotdot
  | _, _, [], out, dotdot, _, _ => by rw [cleanLoop_nil, cleanLoop_nil]
  | 0, _, c :: t, _, _, h, _ => by simp at h
  | _ + 1, 0, c :: t, _, _, _, h => by simp at h
  | fuel + 1, fuel2 + 1, c :: t, out, dotdot, h1, h2 => by
    have ht1 : t.length ≤ fuel := by simpa using h1
    have ht2 : t.length ≤ fuel2 := by simpa using h2
    have htt1 : t.tail.length ≤ fuel := by simp; omega
    have htt2 : t.tail.length ≤ fuel2 := by simp; omega
    simp only [cleanLoop]
    split_ifs
    all_goals first
      | exact cleanLoop_fuel rooted fuel fuel2 _ _ _ ht1 ht2
      | exact cleanLoop_fuel rooted fuel fuel2 _ _ _ htt1 htt2
      | exact cleanLoop_fuel rooted fuel fuel2 _ _ _
          (by have hd := length_dropWhile_cons_le c t (by assumption); omega)
          (by have hd := length_dropWhile_cons_le c t (by assumption); omega)

theorem slashes_succ (k : Nat) : slashes (k + 1) = '/' :: slashes k := by
  simp [slashes, List.replicate_succ]

theorem length_slashes (k : Nat) : (slashes k).length = k := by
  simp [slashes]

theorem cleanLoop_skip_slashes (rooted : Bool) : ∀ (k fuel : Nat) (rest out : List Char)
    (dotdot : Nat), (slashes k ++ rest).length ≤ fuel →
    cleanLoop rooted fuel (slashes k ++ rest) out dotdot = cleanLoop rooted fuel rest out dotdot
  | 0, _, _, _, _, _ => by simp [slashes]
  | k + 1, 0, _, _, _, h => by simp [length_slashes] at h
  | k + 1, fuel + 1, rest, out, dotdot, h => by
    have hlen : (slashes k ++ rest).length ≤ fuel := by
      simp only [List.length_append, length_slashes] at h ⊢
      omega
    rw [slashes_succ, List.cons_append]
    simp only [cleanLoop, if_true]
    rw [cleanLoop_fuel rooted fuel (fuel + 1) _ out dotdot hlen (by omega)]
    exact cleanLoop_skip_slashes rooted k (fuel + 1) rest out dotdot (by omega)

theorem takeWhile_seg (seg rest : List Char) (hslash : '/' ∉ seg)
    (hrest : rest = [] ∨ rest.head? = some '/') :
    (seg ++ rest).takeWhile (· != '/') = seg ∧ (seg ++ rest).dropWhile (· != '/') = rest := by
  have hall : ∀ a ∈ seg, (a != '/') = true := by
    intro a ha
    have : a ≠ '/' := fun h => hslash (h ▸ ha)
    simpa using this
  rw [List.takeWhile_append_of_pos hall, List.dropWhile_append_of_pos hall]
  rcases hrest with h | h
  · simp [h]
  · cases rest with
    | nil => simp
    | cons r rs =>
      simp only [List.head?_cons, Option.some.injEq] at h
      simp [h]

/-- One turn of the loop of `path.Clean` on a real path element. -/
theorem cleanLoop_real (rooted : Bool) (fuel : Nat) (seg rest out : List Char) (dotdot : Nat)
    (hseg : realChars seg) (hrest : rest = [] ∨ rest.head? = some '/')
    (hfuel : (seg ++ rest).length ≤ fuel) :
    cleanLoop rooted fuel (seg ++ rest) out dotdot =
      cleanLoop rooted fuel rest (sepOut rooted out seg) dotdot := by
  obtain ⟨htake, hdrop⟩ := takeWhile_seg seg rest hseg.2.2.2 hrest
  obtain ⟨hne, hdot, hdotdot, hslash⟩ := hseg
  cases seg with
  | nil => exact absurd rfl hne
  | cons c t =>
    have hc : c ≠ '/' := fun h => hslash (by simp [h])
    have h2 : ¬ (c = '.' ∧ (t ++ rest = [] ∨ (t ++ rest).head? = some '/')) := by
      rintro ⟨h1, h3⟩
      subst h1
      cases t with
      | nil => exact hdot rfl
      | cons c2 t2 =>
        rcases h3 with h3 | h3
        · simp at h3
        · simp only [List.cons_append, List.head?_cons, Option.some.injEq] at h3
          exact hslash (by simp [h3])
    have h3 : ¬ (c = '.' ∧ (t ++ rest).head? = some '.' ∧
        ((t ++ rest).tail = [] ∨ (t ++ rest).tail.head? = some '/')) := by
      rintro ⟨h1, h4, h5⟩
      subst h1
      cases t with
      | nil =>
        simp only [List.nil_append] at h4
        rcases hrest with h | h
        · simp [h] at h4
        · rw [h] at h4
          simp at h4
      | cons c2 t2 =>
        simp only [List.cons_append, List.head?_cons, Option.some.injEq] at h4
        subst h4
        cases t2 with
        | nil => exact hdotdot rfl
        | cons c3 t3 =>
          simp only [List.cons_append, List.tail_cons, List.head?_cons, Option.some.injEq] at h5
          rcases h5 with h5 | h5
          · simp at h5
          · exact hslash (by simp [h5])
    obtain ⟨f, rfl⟩ : ∃ f, fuel = f + 1 := ⟨fuel - 1, by
      simp only [List.length_append, List.length_cons] at hfuel
      omega⟩
    have hstep : cleanLoop rooted (f + 1) (c :: (t ++ rest)) out dotdot =
        cleanLoop rooted f ((c :: (t ++ rest)).dropWhile (· != '/'))
          (sepOut rooted out ((c :: (t ++ rest)).takeWhile (· != '/'))) dotdot := by
      rw [cleanLoop]
      rw [if_neg hc, if_neg h2, if_neg h3]
      rfl
    rw [List.cons_append, hstep, ← List.cons_append, htake, hdrop]
    have hr : rest.length ≤ f := by
      simp only [List.length_append, List.length_cons] at hfuel
      omega
    exact cleanLoop_fuel rooted f (f + 1) rest _ dotdot hr (by omega)

/-- One turn of the loop of `path.Clean` on a ".." element of a relative path that
has nothing to go back over. -/
theorem cleanLoop_dotdot (fuel : Nat) (rest out : List Char)
    (hrest : rest = [] ∨ rest.head? = some '/')
    (hfuel : (['.', '.'] ++ rest).length ≤ fuel) :
    cleanLoop false fuel (['.', '.'] ++ rest) out out.length =
      cleanLoop false fuel rest (sepOut false out ['.', '.'])
        (sepOut false out ['.', '.']).length := by
  obtain ⟨f, rfl⟩ : ∃ f, fuel = f + 1 := ⟨fuel - 1, by
    simp only [List.length_append, List.length_cons] at hfuel
    omega⟩
  have hr : rest.length ≤ f := by
    simp only [List.length_append, List.length_cons] at hfuel
    omega
  have h1 : ('.' : Char) ≠ '/' := by decide
  have h2 : ¬ (('.' : Char) = '.' ∧
      (('.' :: rest) = [] ∨ ('.' :: rest).head? = some '/')) := by
    rintro ⟨-, h | h⟩
    · simp at h
    · simp at h
  have h3 : (('.' : Char) = '.' ∧ ('.' :: rest).head? = some '.' ∧
      (('.' :: rest).tail = [] ∨ ('.' :: rest).tail.head? = some '/')) :=
    ⟨rfl, rfl, hrest⟩
  have hstep : cleanLoop false (f + 1) ('.' :: '.' :: rest) out out.length =
      cleanLoop false f rest (sepOut false out ['.', '.'])
        (sepOut false out ['.', '.']).length := by
    rw [cleanLoop]
    rw [if_neg h1, if_neg h2, if_pos h3, if_neg (Nat.lt_irrefl _)]
    cases out <;> simp [sepOut]
  show cleanLoop false (f + 1) ('.' :: '.' :: rest) out out.length = _
  rw [hstep]
  exact cleanLoop_fuel false f (f + 1) rest _ _ hr (by omega)

theorem encSegs_cons (k : Nat) (seg : List Char) (items : List (Nat × List Char)) :
    encSegs ((k, seg) :: items) = slashes (k + 1) ++ (seg ++ encSegs items) := by
  simp [encSegs]

theorem outSegs_cons (k : Nat) (seg : List Char) (items : List (Nat × List Char)) :
    outSegs ((k, seg) :: items) = '/' :: (seg ++ outSegs items) := by
  simp [outSegs]

theorem encSegs_append (xs ys : List (Nat × List Char)) :
    encSegs (xs ++ ys) = encSegs xs ++ encSegs ys := by
  simp [encSegs]

theorem outSegs_append (xs ys : List (Nat × List Char)) :
    outSegs (xs ++ ys) = outSegs xs ++ outSegs ys := by
  simp [outSegs]

theorem encSegs_head (items : List (Nat × List Char)) (rest : List Char)
    (hrest : rest = [] ∨ rest.head? = some '/') :
    encSegs items ++ rest = [] ∨ (encSegs items ++ rest).head? = some '/' := by
  cases items with
  | nil => simpa [encSegs] using hrest
  | cons it items =>
    right
    obtain ⟨k, seg⟩ := it
    simp [encSegs_cons, slashes_succ]

theorem slashes_head (k : Nat) : slashes k = [] ∨ (slashes k).head? = some '/' := by
  cases k with
  | zero => left; rfl
  | succ k => right; simp [slashes_succ]

theorem sepOut_of_ne (rooted : Bool) (out seg : List Char)
    (hout : out.length ≠ (if rooted then 1 else 0)) :
    sepOut rooted out seg = out ++ '/' :: seg := by
  cases rooted <;> simp_all [sepOut]

theorem sepOut_start (rooted : Bool) (seg : List Char) :
    sepOut rooted (if rooted then ['/'] else []) seg = (if rooted then ['/'] else []) ++ seg := by
  cases rooted <;> simp [sepOut]

/-- The loop of `path.Clean` on real path elements, each after one slash or more:
every run of slashes becomes one slash. -/
theorem cleanLoop_items (rooted : Bool) : ∀ (items : List (Nat × List Char))
    (rest : List Char) (fuel : Nat) (out : List Char) (dotdot : Nat),
    (∀ it ∈ items, realChars it.2) → (rest = [] ∨ rest.head? = some '/') →
    out.length ≠ (if rooted then 1 else 0) → (encSegs items ++ rest).length ≤ fuel →
    cleanLoop rooted fuel (encSegs items ++ rest) out dotdot =
      cleanLoop rooted fuel rest (out ++ outSegs items) dotdot
  | [], rest, fuel, out, dotdot, _, _, _, _ => by simp [encSegs, outSegs]
  | (k, seg) :: items, rest, fuel, out, dotdot, hreal, hrest, hout, hfuel => by
    have hseg : realChars seg := hreal (k, seg) (by simp)
    have hpos : 0 < seg.length := List.length_pos.2 hseg.1
    rw [encSegs_cons] at hfuel
    simp only [List.append_assoc, List.length_append, length_slashes] at hfuel
    rw [encSegs_cons, List.append_assoc, List.append_assoc,
      cleanLoop_skip_slashes rooted (k + 1) fuel _ out dotdot (by
        simp only [List.length_append, length_slashes]; omega),
      cleanLoop_real rooted fuel seg _ out dotdot hseg (encSegs_head items rest hrest) (by
        simp only [List.length_append]; omega),
      sepOut_of_ne rooted out seg hout,
      cleanLoop_items rooted items rest fuel _ dotdot (fun it hit => hreal it (by simp [hit]))
        hrest (by
          simp only [List.length_append, List.length_cons]
          split <;> omega) (by
          simp only [List.length_append]; omega)]
    simp [outSegs_cons]

/-- The loop of `path.Clean` on the ".." elements that follow the first element of
a relative path made of ".." elements: each is kept. -/
theorem cleanLoop_dotdots : ∀ (ks : List Nat) (rest : List Char) (fuel : Nat)
    (out : List Char), out ≠ [] → (rest = [] ∨ rest.head? = some '/') →
    (encSegs (ks.map (fun k => (k, ['.', '.']))) ++ rest).length ≤ fuel →
    cleanLoop false fuel (encSegs (ks.map (fun k => (k, ['.', '.']))) ++ rest) out out.length =
      cleanLoop false fuel rest (out ++ outSegs (ks.map (fun k => (k, ['.', '.']))))
        (out ++ outSegs (ks.map (fun k => (k, ['.', '.'])))).length
  | [], rest, fuel, out, _, _, _ => by simp [encSegs, outSegs]
  | k :: ks, rest, fuel, out, hout, hrest, hfuel => by
    rw [List.map_cons, encSegs_cons] at hfuel
    simp only [List.append_assoc, List.length_append, length_slashes] at hfuel
    have hlen : out.length ≠ (if false = true then 1 else 0) := by
      simpa using hout
    rw [List.map_cons, encSegs_cons, List.append_assoc, List.append_assoc,
      cleanLoop_skip_slashes false (k + 1) fuel _ out _ (by
        simp only [List.length_append, length_slashes]; omega),
      cleanLoop_dotdot fuel _ out (encSegs_head _ rest hrest) (by
        simp only [List.length_append]; omega),
      sepOut_of_ne false out _ hlen,
      cleanLoop_dotdots ks rest fuel _ (by simp) hrest (by
        simp only [List.length_append]; omega)]
    simp [outSegs_cons]

theorem Clean_rooted (t : List Char) :
    Clean ⟨'/' :: t⟩ =
      (if (cleanLoop true (t.length + 1) t ['/'] 1).length = 0 then "."
        else ⟨cleanLoop true (t.length + 1) t ['/'] 1⟩) := by
  have h : (⟨'/' :: t⟩ : String) ≠ "" := by
    intro h0
    exact absurd (congrArg String.data h0) (by simp)
  simp [Clean, h]

theorem Clean_relative (l : List Char) (hne : l ≠ []) (hhead : l.head? ≠ some '/') :
    Clean ⟨l⟩ =
      (if (cleanLoop false l.length l [] 0).length = 0 then "."
        else ⟨cleanLoop false l.length l [] 0⟩) := by
  have h : (⟨l⟩ : String) ≠ "" := by
    intro h0
    exact hne (congrArg String.data h0)
  simp [Clean, h, hhead]

/-- On a path of real elements, rooted by `k0` slashes or relative when `k0` is zero,
`path.Clean` squeezes every run of slashes into one and drops the trailing ones. -/
theorem Clean_real (k0 : Nat) (seg0 : List Char) (items : List (Nat × List Char)) (kend : Nat)
    (hseg0 : realChars seg0) (hreal : ∀ it ∈ items, realChars it.2) :
    Clean ⟨slashes k0 ++ (seg0 ++ (encSegs items ++ slashes kend))⟩ =
      ⟨(if k0 = 0 then [] else ['/']) ++ (seg0 ++ outSegs items)⟩ := by
  obtain ⟨c, t, rfl⟩ : ∃ c t, seg0 = c :: t := by
    cases seg0 with
    | nil => exact absurd rfl hseg0.1
    | cons c t => exact ⟨c, t, rfl⟩
  have hc : c ≠ '/' := fun h => hseg0.2.2.2 (by simp [h])
  have hrest := encSegs_head items (slashes kend) (slashes_head kend)
  cases k0 with
  | zero =>
    rw [show slashes 0 ++ ((c :: t) ++ (encSegs items ++ slashes kend)) =
        (c :: t) ++ (encSegs items ++ slashes kend) from rfl,
      Clean_relative _ (by simp) (by simp [hc]),
      cleanLoop_real false _ (c :: t) _ [] 0 hseg0 hrest (Nat.le_refl _),
      cleanLoop_items false items (slashes kend) _ _ 0 hreal (slashes_head kend)
        (by simp [sepOut]) (by simp only [List.length_append, List.length_cons]; omega),
      ← List.append_nil (slashes kend),
      cleanLoop_skip_slashes false kend _ [] _ 0 (by
        simp only [List.length_append, List.length_cons]; omega),
      cleanLoop_nil]
    simp [sepOut]
  | succ k =>
    have hdata : slashes (k + 1) ++ ((c :: t) ++ (encSegs items ++ slashes kend)) =
        '/' :: (slashes k ++ ((c :: t) ++ (encSegs items ++ slashes kend))) := by
      rw [slashes_succ, List.cons_append]
    rw [hdata, Clean_rooted]
    rw [cleanLoop_skip_slashes true k _ _ ['/'] 1 (by omega),
      cleanLoop_real true _ (c :: t) _ ['/'] 1 hseg0 hrest (by
        simp only [List.length_append, List.length_cons, length_slashes]; omega),
      cleanLoop_items true items (slashes kend) _ _ 1 hreal (slashes_head kend)
        (by simp [sepOut]) (by
          simp only [List.length_append, List.length_cons, length_slashes]; omega),
      ← List.append_nil (slashes kend),
      cleanLoop_skip_slashes true kend _ [] _ 1 (by
        simp only [List.length_append, List.length_cons, length_slashes]; omega),
      cleanLoop_nil]
    simp [sepOut]

/-- On a relative path that begins with ".." elements and goes on with real ones,
`path.Clean` keeps every element and squeezes every run of slashes into one. -/
theorem Clean_dotdots (ks : List Nat) (items : List (Nat × List Char)) (kend : Nat)
    (hreal : ∀ it ∈ items, realChars it.2) :
    Clean ⟨['.', '.'] ++ (encSegs (ks.map (fun k => (k, ['.', '.']))) ++
        (encSegs items ++ slashes kend))⟩ =
      ⟨['.', '.'] ++ (outSegs (ks.map (fun k => (k, ['.', '.']))) ++ outSegs items)⟩ := by
  have hrest := encSegs_head items (slashes kend) (slashes_head kend)
  have hrest2 := encSegs_head (ks.map (fun k => (k, ['.', '.']))) _ hrest
  rw [Clean_relative _ (by simp) (by simp)]
  have h0 := cleanLoop_dotdot
    (['.', '.'] ++ (encSegs (ks.map (fun k => (k, ['.', '.']))) ++
      (encSegs items ++ slashes kend))).length _ [] hrest2 (Nat.le_refl _)
  simp only [List.length_nil] at h0
  rw [h0,
    cleanLoop_dotdots ks _ _ _ (by simp [sepOut]) hrest (by
      simp only [List.length_append, List.length_cons]; omega),
    cleanLoop_items false items (slashes kend) _ _ _ hreal (slashes_head kend)
      (by simp [sepOut]) (by simp only [List.length_append, List.length_cons]; omega),
    ← List.append_nil (slashes kend),
    cleanLoop_skip_slashes false kend _ [] _ _ (by
      simp only [List.length_append, List.length_cons]; omega),
    cleanLoop_nil]
  simp [sepOut]

theorem realChars_of_realSegment {s : String} (h : realSegment s) : realChars s.data := by
  obtain ⟨h1, h2, h3, h4⟩ := h
  refine ⟨?_, ?_, ?_, h4⟩
  · intro h0
    exact h1 (String.ext h0)
  · intro h0
    exact h2 (String.ext h0)
  · intro h0
    exact h3 (String.ext h0)

theorem joinBuf_chat (p d : String) :
    joinBuf [] [p, "/openai/deployments/", d, "/chat/completions"] =
      p.data ++ slashes (if p = "" then 0 else 1) ++
        ('/' :: "openai".data ++ '/' :: "deployments".data ++ ['/']) ++ ['/'] ++ d.data ++
        ['/'] ++ ('/' :: "chat".data ++ '/' :: "completions".data) := by
  by_cases hp : p = ""
  · subst hp
    simp [joinBuf, slashes]
  · have hlen : 0 < p.data.length := by
      apply List.length_pos.2
      intro h0
      exact hp (String.ext h0)
    have hlen2 : 0 < p.length := hlen
    simp [joinBuf, slashes, hp, hlen2]

theorem rootedPath_cons (s : String) (segs : List String) :
    (rootedPath (s :: segs)).data = '/' :: (s.data ++ (rootedPath segs).data) := by
  simp [rootedPath]

/-- The segments of a clean rooted path as items without extra slashes. -/
theorem rootedPath_data (segs : List String) :
    (rootedPath segs).data = encSegs (segs.map (fun s => (0, s.data))) ∧
    (rootedPath segs).data = outSegs (segs.map (fun s => (0, s.data))) := by
  induction segs with
  | nil => exact ⟨rfl, rfl⟩
  | cons s segs ih =>
    rw [List.map_cons, encSegs_cons, outSegs_cons, rootedPath_cons, ← ih.1, ← ih.2]
    exact ⟨rfl, rfl⟩

theorem slash_encSegs_cons (k : Nat) (seg : List Char) (items : List (Nat × List Char)) :
    '/' :: encSegs ((k, seg) :: items) = encSegs ((k + 1, seg) :: items) := by
  rw [encSegs_cons, encSegs_cons, slashes_succ (k + 1)]
  rfl

theorem realChars_openai : realChars "openai".data ∧ realChars "deployments".data ∧
    realChars "chat".data ∧ realChars "completions".data := by
  unfold realChars
  decide

theorem chatItems_real (j : Nat) (d1 : String) (dsegs : List String)
    (hdsegs : ∀ s ∈ d1 :: dsegs, realSegment s) : ∀ it ∈ chatItems j d1 dsegs, realChars it.2 := by
  intro it hit
  simp only [chatItems, List.mem_append, List.mem_map, List.mem_cons, List.mem_singleton,
    List.not_mem_nil, or_false] at hit
  rcases hit with rfl | rfl | (rfl | ⟨s, hs, rfl⟩) | rfl | rfl
  · exact realChars_openai.1
  · exact realChars_openai.2.1
  · exact realChars_of_realSegment (hdsegs d1 (by simp))
  · exact realChars_of_realSegment (hdsegs s (by simp [hs]))
  · exact realChars_openai.2.2.1
  · exact realChars_openai.2.2.2

/-- The buffer of `path.Join` after the base path, and what `path.Clean` makes of it. -/
theorem chatItems_data (j : Nat) (d d1 : String) (dsegs : List String)
    (hdep : "/" ++ d = rootedPath (d1 :: dsegs)) :
    slashes j ++ ('/' :: "openai".data ++ '/' :: "deployments".data ++ ['/']) ++ ['/'] ++
        d.data ++ ['/'] ++ ('/' :: "chat".data ++ '/' :: "completions".data) =
      encSegs (chatItems j d1 dsegs) ∧
    outSegs (chatItems j d1 dsegs) =
      "/openai/deployments/".data ++ d.data ++ "/chat/completions".data := by
  have hd : '/' :: d.data = encSegs ((0, d1.data) :: dsegs.map (fun s => (0, s.data))) := by
    have h0 := congrArg String.data hdep
    rw [(rootedPath_data (d1 :: dsegs)).1] at h0
    simpa using h0
  have hd2 : '/' :: d.data = outSegs ((0, d1.data) :: dsegs.map (fun s => (0, s.data))) := by
    have h0 := congrArg String.data hdep
    rw [(rootedPath_data (d1 :: dsegs)).2] at h0
    simpa using h0
  have e1 : encSegs ((1, d1.data) :: dsegs.map (fun s => (0, s.data))) =
      '/' :: '/' :: d.data := by
    rw [← slash_encSegs_cons, ← hd]
  have e2 : outSegs ((1, d1.data) :: dsegs.map (fun s => (0, s.data))) = '/' :: d.data := by
    rw [outSegs_cons, hd2, outSegs_cons]
  have hs : slashes (j + 1) = slashes j ++ ['/'] := List.replicate_succ' j '/'
  constructor
  · rw [chatItems, encSegs_cons, encSegs_cons, encSegs_append, e1, hs]
    simp [encSegs, slashes, List.replicate]
  · rw [chatItems, outSegs_cons, outSegs_cons, outSegs_append, e2]
    simp [outSegs]

/-- The shapes of a base path without its trailing slash. -/
theorem basePath_data (rooted : Bool) (ups : Nat) (segs : List String)
    (hsegs : ∀ s ∈ segs, realSegment s) :
    (basePath rooted ups segs false).data = [] ∨
    (∃ (k0 : Nat) (seg0 : List Char) (items : List (Nat × List Char)),
      realChars seg0 ∧ (∀ it ∈ items, realChars it.2) ∧
      (basePath rooted ups segs false).data = slashes k0 ++ (seg0 ++ encSegs items) ∧
      (basePath rooted ups segs false).data =
        (if k0 = 0 then [] else ['/']) ++ (seg0 ++ outSegs items)) ∨
    (∃ (ks : List Nat) (items : List (Nat × List Char)),
      (∀ it ∈ items, realChars it.2) ∧
      (basePath rooted ups segs false).data =
        ['.', '.'] ++ (encSegs (ks.map (fun k => (k, ['.', '.']))) ++ encSegs items) ∧
      (basePath rooted ups segs false).data =
        ['.', '.'] ++ (outSegs (ks.map (fun k => (k, ['.', '.']))) ++ outSegs items)) := by
  have hitems : ∀ l : List String, (∀ s ∈ l, realSegment s) →
      ∀ it ∈ l.map (fun s => ((0 : Nat), s.data)), realChars it.2 := by
    intro l hl it hit
    simp only [List.mem_map] at hit
    obtain ⟨s, hs, rfl⟩ := hit
    exact realChars_of_realSegment (hl s hs)
  have hreal : ∀ s0 rest, (∀ s ∈ s0 :: rest, realSegment s) → ∀ k0 : Nat,
      ∃ (seg0 : List Char) (items : List (Nat × List Char)),
        realChars seg0 ∧ (∀ it ∈ items, realChars it.2) ∧
        slashes k0 ++ (s0.data ++ (rootedPath rest).data) = slashes k0 ++ (seg0 ++ encSegs items) ∧
        (if k0 = 0 then [] else ['/']) ++ (s0.data ++ (rootedPath rest).data) =
          (if k0 = 0 then [] else ['/']) ++ (seg0 ++ outSegs items) := by
    intro s0 rest h k0
    refine ⟨s0.data, rest.map (fun s => (0, s.data)),
      realChars_of_realSegment (h s0 (by simp)),
      hitems rest (fun s hs => h s (by simp [hs])), ?_, ?_⟩
    · rw [(rootedPath_data rest).1]
    · rw [(rootedPath_data rest).2]
  cases rooted with
  | true =>
    cases segs with
    | nil => left; rfl
    | cons s0 rest =>
      right; left
      obtain ⟨seg0, items, h1, h2, h3, h4⟩ := hreal s0 rest hsegs 1
      refine ⟨1, seg0, items, h1, h2, ?_, ?_⟩
      · rw [← h3]
        simp [basePath, rootedPath_cons, slashes]
      · rw [← h4]
        simp [basePath, rootedPath_cons]
  | false =>
    cases ups with
    | zero =>
      cases segs with
      | nil => left; rfl
      | cons s0 rest =>
        right; left
        obtain ⟨seg0, items, h1, h2, h3, h4⟩ := hreal s0 rest hsegs 0
        refine ⟨0, seg0, items, h1, h2, ?_, ?_⟩
        · rw [← h3]
          simp [basePath, relPath, slashes]
        · rw [← h4]
          simp [basePath, relPath]
    | succ n =>
      right; right
      refine ⟨List.replicate n 0, segs.map (fun s => (0, s.data)), hitems segs hsegs, ?_, ?_⟩
      · have h := (rootedPath_data (List.replicate n ".." ++ segs)).1
        rw [List.map_append, encSegs_append, List.map_replicate] at h
        simp only [basePath, List.replicate_succ, List.cons_append, relPath, Bool.false_eq_true,
          if_false, String.data_append, List.append_nil, h, List.map_replicate]
      · have h := (rootedPath_data (List.replicate n ".." ++ segs)).2
        rw [List.map_append, outSegs_append, List.map_replicate] at h
        simp only [basePath, List.replicate_succ, List.cons_append, relPath, Bool.false_eq_true,
          if_false, String.data_append, List.append_nil, h, List.map_replicate]

/-- The path that `AzureOpenAIChatCompletion` builds from a clean base path and a
clean deployment: the base path without its trailing slash, then the four elements. -/
theorem pathJoin_chat (rooted : Bool) (ups : Nat) (segs dsegs : List String) (trailing : Bool)
    (d : String) (hsegs : ∀ s ∈ segs, realSegment s) (hdep : "/" ++ d = rootedPath dsegs)
    (hdsegs : ∀ s ∈ dsegs, realSegment s) :
    pathJoin [basePath rooted ups segs trailing, "/openai/deployments/", d,
        "/chat/completions"] =
      basePath rooted ups segs false ++ "/openai/deployments/" ++ d ++ "/chat/completions" := by
  have hsum : ¬ (([basePath rooted ups segs trailing, "/openai/deployments/", d,
      "/chat/completions"].map String.length).sum = 0) := by
    have h1 : String.length "/openai/deployments/" = 20 := by decide
    simp only [List.map_cons, List.map_nil, List.sum_cons, List.sum_nil, h1]
    omega
  unfold pathJoin
  rw [if_neg hsum, joinBuf_chat]
  cases dsegs with
  | nil =>
    have h0 := congrArg String.data hdep
    simp [rootedPath] at h0
  | cons d1 dsegs =>
    have hp : (basePath rooted ups segs trailing).data =
        (basePath rooted ups segs false).data ++ slashes (if trailing then 1 else 0) := by
      cases trailing <;> simp [basePath, slashes]
    obtain ⟨j, hj⟩ : ∃ j, (basePath rooted ups segs trailing).data ++
        slashes (if basePath rooted ups segs trailing = "" then 0 else 1) =
        (basePath rooted ups segs false).data ++ slashes j := by
      refine ⟨(if trailing then 1 else 0) +
        (if basePath rooted ups segs trailing = "" then 0 else 1), ?_⟩
      rw [hp, List.append_assoc]
      congr 1
      exact (List.replicate_add _ _ _).symm
    have hbuf : (basePath rooted ups segs trailing).data ++
        slashes (if basePath rooted ups segs trailing = "" then 0 else 1) ++
        ('/' :: "openai".data ++ '/' :: "deployments".data ++ ['/']) ++ ['/'] ++ d.data ++
        ['/'] ++ ('/' :: "chat".data ++ '/' :: "completions".data) =
        (basePath rooted ups segs false).data ++ encSegs (chatItems j d1 dsegs) := by
      rw [hj, ← (chatItems_data j d d1 dsegs hdep).1]
      simp only [List.append_assoc]
    have hout := (chatItems_data j d d1 dsegs hdep).2
    have hcreal := chatItems_real j d1 dsegs hdsegs
    have hgoal : ∀ l : List Char, l = (basePath rooted ups segs false).data ++
        outSegs (chatItems j d1 dsegs) →
        (⟨l⟩ : String) = basePath rooted ups segs false ++ "/openai/deployments/" ++ d ++
          "/chat/completions" := by
      intro l hl
      apply String.ext
      rw [hl, hout, String.data_append, String.data_append, String.data_append,
        List.append_assoc, List.append_assoc, List.append_assoc]
    rw [hbuf]
    rcases basePath_data rooted ups segs hsegs with h | ⟨k0, seg0, items, h1, h2, h3, h4⟩ |
      ⟨ks, items, h2, h3, h4⟩
    · rw [h, List.nil_append]
      have hc : encSegs (chatItems j d1 dsegs) =
          slashes (j + 1) ++ ("openai".data ++ (encSegs ((0, "deployments".data) ::
            ((1, d1.data) :: dsegs.map (fun s => (0, s.data)) ++
              [(1, "chat".data), (0, "completions".data)])) ++ slashes 0)) := by
        rw [chatItems, encSegs_cons]
        simp [slashes]
      rw [hc, Clean_real (j + 1) _ _ 0 realChars_openai.1
        (fun it hit => hcreal it (by unfold chatItems; exact List.mem_cons_of_mem _ hit))]
      apply hgoal
      rw [if_neg (Nat.succ_ne_zero j), h, chatItems, outSegs_cons]
      rfl
    · have hc : (basePath rooted ups segs false).data ++ encSegs (chatItems j d1 dsegs) =
          slashes k0 ++ (seg0 ++ (encSegs (items ++ chatItems j d1 dsegs) ++ slashes 0)) := by
        rw [h3, encSegs_append]
        simp [slashes]
      rw [hc, Clean_real k0 seg0 _ 0 h1 (by
        intro it hit
        rcases List.mem_append.1 hit with h | h
        · exact h2 it h
        · exact hcreal it h)]
      apply hgoal
      rw [h4, outSegs_append]
      simp
    · have hc : (basePath rooted ups segs false).data ++ encSegs (chatItems j d1 dsegs) =
          ['.', '.'] ++ (encSegs (ks.map (fun k => (k, ['.', '.']))) ++
            (encSegs (items ++ chatItems j d1 dsegs) ++ slashes 0)) := by
        rw [h3, encSegs_append]
        simp [slashes]
      rw [hc, Clean_dotdots ks _ 0 (by
        intro it hit
        rcases List.mem_append.1 hit with h | h
        · exact h2 it h
        · exact hcreal it h)]
      apply hgoal
      rw [h4, outSegs_append]
      simp

theorem Contains_ite_append {s t : String} (c : Prop) [Decidable c] (a b : String)
    (h : Contains s t) : Contains (if c then s ++ a ++ b else s) t := by
  obtain ⟨x, y, hxy⟩ := h
  split
  · exact ⟨x, y ++ a ++ b, by rw [hxy]; simp only [String.append_assoc]⟩
  · exact ⟨x, y, hxy⟩

/-- The rendering of a URL that is not opaque holds its escaped path. -/
theorem urlString_contains_path (std : ChatDeps) (u : URL) (h : u.Opaque = "") :
    Contains (urlString std u) (std.EscapedPath u) := by
  unfold urlString
  show Contains (if u.Fragment ≠ "" then _ ++ "#" ++ std.EscapedFragment u else _) _
  apply Contains_ite_append
  show Contains (if u.ForceQuery = true ∨ u.RawQuery ≠ "" then _ ++ "?" ++ u.RawQuery else _) _
  apply Contains_ite_append
  show Contains (if u.Opaque ≠ "" then _ else _ ++ std.EscapedPath u) _
  rw [if_neg (by simp [h])]
  exact ⟨_, "", (String.append_empty _).symm⟩

theorem StartsWith_iff (s t : String) : StartsWith s t ↔ t.data.isPrefixOf s.data = true := by
  unfold StartsWith
  rw [List.isPrefixOf_iff_prefix]
  constructor
  · rintro ⟨b, hb⟩
    exact ⟨b.data, by simp [hb]⟩
  · rintro ⟨l, hl⟩
    exact ⟨⟨l⟩, String.ext (by simp [hl])⟩

theorem chat_completion_request {std : ChatDeps} {cfg : AzureOpenAIConfig} {target : URL}
    (h : chatCompletionURL std cfg = .ok target) (systemPrompt userPrompt : String) :
    AzureOpenAIChatCompletion std cfg systemPrompt userPrompt =
      match std.jsonMarshal (chatCompletionPayload systemPrompt userPrompt) with
      | .error err => .error ("failed to marshal Azure OpenAI request: " ++ err)
      | .ok body =>
        match std.NewRequest "POST" (urlString std target) body with
        | .error err => .error ("failed to create Azure OpenAI request: " ++ err)
        | .ok req =>
          match std.Do ((req.SetHeader "Content-Type" "application/json").SetHeader "api-key"
            cfg.APIKey) with
          | .error err => .error ("azure openai request failed: " ++ err)
          | .ok resp => chatCompletionResult std resp := by
  simp only [AzureOpenAIChatCompletion, chatCompletionExchange, h]
  cases h1 : std.jsonMarshal (chatCompletionPayload systemPrompt userPrompt) with
  | error err => rfl
  | ok body =>
    simp only []
    cases h2 : std.NewRequest "POST" (urlString std target) body with
    | error err => rfl
    | ok req =>
      simp only []
      cases h3 : std.Do ((req.SetHeader "Content-Type" "application/json").SetHeader "api-key"
        cfg.APIKey) with
      | error err => rfl
      | ok resp => rfl

/-! ## The chat completion client: request URL -/

/-- C9 (as amended): when the endpoint parses as a URL that is not opaque, with a
path p that `path.Clean` keeps up to one trailing slash (p is empty, or rooted with
segments none of which is empty, "." or "..", or relative with leading ".." segments
followed by such segments; with or without one trailing slash), and the deployment d
is made of one or more segments none of which is empty, "." or "..", then the URL
from which `AzureOpenAIChatCompletion` builds its request has the path p without its
trailing slash followed by "/openai/deployments/" ++ d ++ "/chat/completions": p is
kept as the beginning of that path, the path ends with
"/openai/deployments/" ++ d ++ "/chat/completions", and the request URL handed to
`http.NewRequestWithContext` is the rendering of that URL, which holds the escaped
form of that path. -/
theorem chat_url_path_appends_segments (std : ChatDeps) (cfg : AzureOpenAIConfig) (u : URL)
    (rooted : Bool) (ups : Nat) (segs dsegs : List String) (trailing : Bool)
    (hparse : std.urlParse cfg.Endpoint = .ok u)
    (hhier : u.Opaque = "")
    (hpath : u.Path = basePath rooted ups segs trailing)
    (hsegs : ∀ s ∈ segs, realSegment s)
    (hdep : "/" ++ cfg.Deployment = rootedPath dsegs)
    (hdsegs : ∀ s ∈ dsegs, realSegment s) :
    ∃ target : URL, chatCompletionURL std cfg = .ok target ∧
      target.Path =
        basePath rooted ups segs false ++ "/openai/deployments/" ++ cfg.Deployment ++
          "/chat/completions" ∧
      StartsWith target.Path u.Path ∧
      EndsWith target.Path ("/openai/deployments/" ++ cfg.Deployment ++ "/chat/completions") ∧
      target.Opaque = "" ∧
      Contains (urlString std target) (std.EscapedPath target) ∧
      ∀ systemPrompt userPrompt : String,
        AzureOpenAIChatCompletion std cfg systemPrompt userPrompt =
          match std.jsonMarshal (chatCompletionPayload systemPrompt userPrompt) with
          | .error err => .error ("failed to marshal Azure OpenAI request: " ++ err)
          | .ok body =>
            match std.NewRequest "POST" (urlString std target) body with
            | .error err => .error ("failed to create Azure OpenAI request: " ++ err)
            | .ok req =>
              match std.Do ((req.SetHeader "Content-Type" "application/json").SetHeader
                "api-key" cfg.APIKey) with
              | .error err => .error ("azure openai request failed: " ++ err)
              | .ok resp => chatCompletionResult std resp := by
  have hjoin := pathJoin_chat rooted ups segs dsegs trailing cfg.Deployment hsegs hdep hdsegs
  rw [← hpath] at hjoin
  have hurl : chatCompletionURL std cfg = .ok
      { u with
        Path := pathJoin [u.Path, "/openai/deployments/", cfg.Deployment, "/chat/completions"]
        RawQuery := std.querySet u.RawQuery "api-version" cfg.APIVersion } := by
    simp only [chatCompletionURL, hparse]
  refine ⟨_, hurl, hjoin, ?_, ?_, hhier, urlString_contains_path std _ hhier,
    chat_completion_request hurl⟩
  · dsimp only
    rw [hjoin, hpath]
    cases trailing with
    | false =>
      exact ⟨"/openai/deployments/" ++ cfg.Deployment ++ "/chat/completions", by
        simp [basePath, String.append_assoc]⟩
    | true =>
      exact ⟨"openai/deployments/" ++ cfg.Deployment ++ "/chat/completions", by
        apply String.ext
        simp [basePath]⟩
  · dsimp only
    rw [hjoin]
    exact ⟨basePath rooted ups segs false, by simp only [String.append_assoc]⟩

/-- Witness of C9: the endpoint "https://example.openai.azure.com/base" and the
deployment "gpt" give the request path "/base/openai/deployments/gpt/chat/completions",
and the URL that is requested is that of the endpoint with this path. -/
theorem chat_url_path_appends_segments_witness :
    (∃ target, chatCompletionURL sampleRefusingDeps sampleChatConfig = .ok target ∧
      target.Path = "/base/openai/deployments/gpt/chat/completions") ∧
    AzureOpenAIChatCompletion sampleRefusingDeps sampleChatConfig "system" "user" =
      .error ("azure openai request failed: " ++
        "https://example.openai.azure.com/base/openai/deployments/gpt/chat/completions" ++
        "?api-version=2024-06-01") := by
  obtain ⟨target, h1, h2, -, -, -, -, -⟩ := chat_url_path_appends_segments
    sampleRefusingDeps sampleChatConfig (sampleURL "/base") true 0 ["base"] ["gpt"] false
    rfl rfl (by decide)
    (by intro s hs; rw [List.mem_singleton] at hs; subst hs; unfold realSegment; decide)
    (by decide)
    (by intro s hs; rw [List.mem_singleton] at hs; subst hs; unfold realSegment; decide)
  exact ⟨⟨target, h1, h2.trans (by decide)⟩, rfl⟩

/-- Counterexample to C9 as stated: with the non-empty deployment ".." and the
endpoint path "/base" the request path is "/base/openai/chat/completions", which
does not end with "/openai/deployments/../chat/completions"; with the endpoint
path "/a/../b" the request path is "/b/openai/deployments/gpt/chat/completions",
of which "/a/../b" is not the beginning; and for the opaque endpoint
"https:example.com", which parses with an empty path, the URL that is requested is
"https:example.com?api-version=2024-06-01", with no path at all. -/
theorem chat_url_path_cleans_dot_segments :
    (chatCompletionURL sampleRefusingDeps
        { sampleChatConfig with Deployment := ".." }).map URL.Path =
      .ok "/base/openai/chat/completions" ∧
    ¬ EndsWith "/base/openai/chat/completions" "/openai/deployments/../chat/completions" ∧
    (chatCompletionURL sampleRefusingDeps
        { sampleChatConfig with Endpoint := "https://example.openai.azure.com/a/../b" }).map
        URL.Path =
      .ok "/b/openai/deployments/gpt/chat/completions" ∧
    ¬ StartsWith "/b/openai/deployments/gpt/chat/completions" "/a/../b" ∧
    sampleURLParse "https:example.com" = .ok sampleOpaqueURL ∧
    sampleOpaqueURL.Path = "" ∧
    AzureOpenAIChatCompletion sampleRefusingDeps
        { sampleChatConfig with Endpoint := "https:example.com" } "system" "user" =
      .error ("azure openai request failed: " ++ "https:example.com?api-version=2024-06-01") := by
  refine ⟨rfl, ?_, rfl, ?_, rfl, rfl, rfl⟩
  · rw [← HasSuffix_iff]
    decide
  · rw [StartsWith_iff]
    decide

end Github
